import Mathlib

/- Shallow embedding of the godseye Supabase edge functions: the ingest
pipeline (functions/ingest plus _shared/auth.ts, _shared/db.ts and
_shared/schema.ts), the enroll handler, the offline detector, the rollup
builder and the nonce-cleanup job.  External collaborators (SHA-256, HMAC,
JWT verification/creation, JSON and date parsing) are passed in as an
explicit `Ext` record of abstract functions; everything else is translated
from the TypeScript source.  Timestamps are modelled as integer epoch
milliseconds (`Int`), matching JavaScript `Date.getTime()` and the ordering
of Postgres `timestamptz` columns. -/

namespace Godseye

/- ## Payload shape (the JSON body after `JSON.parse`, before zod validation).
Fields carry the types the zod schema in _shared/schema.ts expects; the
value-level constraints (nonnegativity, ranges, list caps) are checked by
`safeParseIngest` below, mirroring `IngestPayloadSchema.safeParse`. -/

structure RawServer where
  hostname : String
  machine_id : String
  os_name : String
  os_version : String
  kernel : String
  cpu_model : String
  cores : Int
  mem_bytes : Int
  agent_version : String
deriving DecidableEq

structure RawHeartbeat where
  ts : Int
  uptime_s : Int
  load_m1 : Rat
  load_m5 : Rat
  load_m15 : Rat
  cpu_pct : Rat
  mem_used : Int
  mem_free : Int
  swap_used : Int
deriving DecidableEq

structure RawDisk where
  mount : String
  fs : String
  size_bytes : Int
  used_bytes : Int
  inodes_used : Option Int
deriving DecidableEq

structure RawNetIface where
  name : String
  mac : Option String
  ipv4 : List String
  ipv6 : List String
  rx_bytes : Int
  tx_bytes : Int
deriving DecidableEq

structure RawProcess where
  pid : Int
  cmd : String
  cpu_pct : Rat
  mem_bytes : Int
  usr : String
deriving DecidableEq

structure RawPackage where
  name : String
  version : String
  status : Option String
deriving DecidableEq

structure RawUpdates where
  security_updates_count : Int
  regular_updates_count : Int
deriving DecidableEq

structure RawLog where
  ts : Int
  source : String
  level : String
  message : String
deriving DecidableEq

structure RawPayload where
  server : RawServer
  heartbeat : RawHeartbeat
  disks : List RawDisk
  network_ifaces : List RawNetIface
  processes : List RawProcess
  packages : List RawPackage
  updates : Option RawUpdates
  logs : List RawLog
deriving DecidableEq

/- ## zod schema validation (_shared/schema.ts).
`safeParse` collects one issue per failed check; the issue's `path` and
`code` are modelled, and all checks run (zod does not stop at the first
failing field). -/

structure Violation where
  path : List String
  code : String
deriving DecidableEq

def checkStrNonempty (path : List String) (s : String) : List Violation :=
  if s.length < 1 then [⟨path, "too_small"⟩] else []

def checkIntPos (path : List String) (v : Int) : List Violation :=
  if v ≤ 0 then [⟨path, "too_small"⟩] else []

def checkIntNonneg (path : List String) (v : Int) : List Violation :=
  if v < 0 then [⟨path, "too_small"⟩] else []

def checkRatNonneg (path : List String) (v : Rat) : List Violation :=
  if v < 0 then [⟨path, "too_small"⟩] else []

def checkRatMax (path : List String) (hi : Rat) (v : Rat) : List Violation :=
  if hi < v then [⟨path, "too_big"⟩] else []

def validateServer (pre : List String) (s : RawServer) : List Violation :=
  checkStrNonempty (pre ++ ["hostname"]) s.hostname ++
  checkStrNonempty (pre ++ ["machine_id"]) s.machine_id ++
  checkIntPos (pre ++ ["cpu", "cores"]) s.cores ++
  checkIntPos (pre ++ ["mem_bytes"]) s.mem_bytes

def validateHeartbeat (h : RawHeartbeat) : List Violation :=
  checkIntNonneg ["heartbeat", "uptime_s"] h.uptime_s ++
  checkRatNonneg ["heartbeat", "load", "m1"] h.load_m1 ++
  checkRatNonneg ["heartbeat", "load", "m5"] h.load_m5 ++
  checkRatNonneg ["heartbeat", "load", "m15"] h.load_m15 ++
  checkRatNonneg ["heartbeat", "cpu_pct"] h.cpu_pct ++
  checkRatMax ["heartbeat", "cpu_pct"] 100 h.cpu_pct ++
  checkIntNonneg ["heartbeat", "mem", "used"] h.mem_used ++
  checkIntNonneg ["heartbeat", "mem", "free"] h.mem_free ++
  checkIntNonneg ["heartbeat", "mem", "swap_used"] h.swap_used

def validateDisk (i : Nat) (d : RawDisk) : List Violation :=
  checkIntNonneg ["disks", toString i, "size_bytes"] d.size_bytes ++
  checkIntNonneg ["disks", toString i, "used_bytes"] d.used_bytes ++
  (match d.inodes_used with
   | some v => checkIntNonneg ["disks", toString i, "inodes_used"] v
   | none => [])

def validateDisks (l : List RawDisk) : List Violation :=
  (l.enum.map (fun e => validateDisk e.1 e.2)).flatten

def validateIface (i : Nat) (f : RawNetIface) : List Violation :=
  checkIntNonneg ["network_ifaces", toString i, "rx_bytes"] f.rx_bytes ++
  checkIntNonneg ["network_ifaces", toString i, "tx_bytes"] f.tx_bytes

def validateIfaces (l : List RawNetIface) : List Violation :=
  (l.enum.map (fun e => validateIface e.1 e.2)).flatten

def validateProcess (i : Nat) (p : RawProcess) : List Violation :=
  checkIntPos ["processes", toString i, "pid"] p.pid ++
  checkRatNonneg ["processes", toString i, "cpu_pct"] p.cpu_pct ++
  checkIntNonneg ["processes", toString i, "mem_bytes"] p.mem_bytes

/- `z.array(ProcessSchema).max(50)`: a list longer than 50 adds a
`too_big` issue at path `processes`; the list itself is never truncated. -/
def validateProcesses (l : List RawProcess) : List Violation :=
  (if l.length > 50 then [⟨["processes"], "too_big"⟩] else []) ++
  (l.enum.map (fun e => validateProcess e.1 e.2)).flatten

def validateUpdates : Option RawUpdates → List Violation
  | none => []
  | some u =>
    checkIntNonneg ["updates", "security_updates_count"] u.security_updates_count ++
    checkIntNonneg ["updates", "regular_updates_count"] u.regular_updates_count

/- `z.array(LogSchema).max(200)`. -/
def validateLogs (l : List RawLog) : List Violation :=
  if l.length > 200 then [⟨["logs"], "too_big"⟩] else []

/- `IngestPayloadSchema.safeParse`: success iff the returned list is empty. -/
def safeParseIngest (p : RawPayload) : List Violation :=
  validateServer ["server"] p.server ++
  validateHeartbeat p.heartbeat ++
  validateDisks p.disks ++
  validateIfaces p.network_ifaces ++
  validateProcesses p.processes ++
  validateUpdates p.updates ++
  validateLogs p.logs

/- ## Database rows (DDL in the development document) and the store. -/

structure OrgRow where
  id : String
  name : String
  enroll_secret_hash : String
deriving DecidableEq

structure ServerRow where
  id : String
  org_id : String
  agent_id : String
  hostname : String
  machine_id : String
  os_name : String
  os_version : String
  kernel : String
  cpu_model : String
  cores : Int
  mem_bytes : Int
  agent_version : String
  hmac_secret : String
  refresh_token : String
  first_seen : Int
  last_seen : Int
deriving DecidableEq

structure HeartbeatRow where
  org_id : String
  server_id : String
  ts : Int
  uptime_s : Int
  load_1m : Rat
  load_5m : Rat
  load_15m : Rat
  cpu_pct : Rat
  mem_used : Int
  mem_free : Int
  swap_used : Int
deriving DecidableEq

structure DiskRow where
  org_id : String
  server_id : String
  ts : Int
  mount : String
  fs : String
  size_bytes : Int
  used_bytes : Int
  inodes_used : Option Int
deriving DecidableEq

structure NetIfaceRow where
  org_id : String
  server_id : String
  ts : Int
  name : String
  mac : Option String
  ipv4 : List String
  ipv6 : List String
  rx_bytes : Int
  tx_bytes : Int
deriving DecidableEq

structure ProcessRow where
  org_id : String
  server_id : String
  ts : Int
  pid : Int
  cmd : String
  cpu_pct : Rat
  mem_bytes : Int
  usr : String
deriving DecidableEq

structure PackageRow where
  org_id : String
  server_id : String
  ts : Int
  name : String
  version : String
  status : Option String
deriving DecidableEq

structure UpdateRow where
  org_id : String
  server_id : String
  ts : Int
  security_updates_count : Int
  regular_updates_count : Int
deriving DecidableEq

structure LogRow where
  org_id : String
  server_id : String
  ts : Int
  source : String
  level : String
  message : String
deriving DecidableEq

structure AlertRow where
  id : Nat
  org_id : String
  server_id : String
  ts : Int
  type : String
  severity : String
  message : String
  status : String
deriving DecidableEq

structure NonceRow where
  org_id : String
  agent_id : String
  nonce : String
  ts : Int
deriving DecidableEq

structure Rollup1mRow where
  bucket : Int
  org_id : String
  server_id : String
  cpu_avg : Rat
  cpu_p95 : Rat
  load1_avg : Rat
  load5_avg : Rat
  load15_avg : Rat
  mem_used_avg : Rat
  mem_free_avg : Rat
  swap_used_avg : Rat
  sample_count : Nat
deriving DecidableEq

structure Rollup1hRow where
  bucket : Int
  org_id : String
  server_id : String
  cpu_avg : Rat
  cpu_p95 : Rat
  cpu_max : Rat
  load1_avg : Rat
  load5_avg : Rat
  load15_avg : Rat
  mem_used_avg : Rat
  mem_free_avg : Rat
  swap_used_avg : Rat
  sample_count : Nat
deriving DecidableEq

/- `next_alert_id` models the `bigserial` sequence behind `alerts.id`. -/
structure Store where
  orgs : List OrgRow
  servers : List ServerRow
  heartbeats : List HeartbeatRow
  disks : List DiskRow
  network_ifaces : List NetIfaceRow
  processes : List ProcessRow
  packages : List PackageRow
  updates : List UpdateRow
  logs : List LogRow
  alerts : List AlertRow
  api_nonces : List NonceRow
  rollup_1m : List Rollup1mRow
  rollup_1h : List Rollup1hRow
  next_alert_id : Nat
deriving DecidableEq

/- ## External collaborators (Web Crypto, djwt, JSON.parse, Date parsing). -/

structure Ext where
  parseDate : String → Option Int
  sha256 : String → String
  hmacSha256 : String → String → String
  verifyJWT : String → Option (String × String)
  parseJson : String → Option RawPayload
  mintJWT : String → String → String

/- ## _shared/auth.ts -/

/- `validateTimestamp`: `Math.abs(now - ts) / 60000 <= 5`, i.e. the absolute
difference in milliseconds is at most 300000; an unparseable timestamp
(`NaN`) fails the check. -/
def validateTimestamp (ext : Ext) (now : Int) (timestamp : String) : Bool :=
  match ext.parseDate timestamp with
  | none => false
  | some ts => (now - ts).natAbs ≤ 300000

/- Canonical signature input: `timestamp + "\n" + nonce + "\n" + bodyHash`. -/
def canonicalMessage (timestamp nonce bodyHash : String) : String :=
  timestamp ++ "\n" ++ nonce ++ "\n" ++ bodyHash

/- `verifyHMAC`: recompute and compare with ordinary string equality. -/
def verifyHMAC (ext : Ext) (hmacSecret timestamp nonce bodyHash sig : String) : Bool :=
  ext.hmacSha256 hmacSecret (canonicalMessage timestamp nonce bodyHash) == sig

/- `authHeader.replace(/^Bearer\s+/i, "")` (single space variant; spelled
out over the character list so that it evaluates by kernel reduction). -/
def stripBearer (h : String) : String :=
  if ("Bearer ".toList).isPrefixOf h.toList then String.mk (h.toList.drop 7) else h

/- ## _shared/db.ts -/

/- `isNonceUsed`: select by the unique triple (org_id, agent_id, nonce). -/
def isNonceUsed (nonces : List NonceRow) (orgId agentId nonce : String) : Bool :=
  nonces.any (fun r => r.org_id == orgId && r.agent_id == agentId && r.nonce == nonce)

/- `storeNonce`: insert the triple with the observation time. -/
def storeNonce (nonces : List NonceRow) (orgId agentId nonce : String) (now : Int) :
    List NonceRow :=
  nonces ++ [⟨orgId, agentId, nonce, now⟩]

/- `cleanupOldNonces`: delete rows with ts < cutoff, returning the number
of deleted rows. -/
def cleanupOldNonces (nonces : List NonceRow) (cutoff : Int) : List NonceRow × Nat :=
  let kept := nonces.filter (fun r => !(decide (r.ts < cutoff)))
  (kept, nonces.length - kept.length)

def getOrgBySecretHash (orgs : List OrgRow) (secretHash : String) : Option OrgRow :=
  orgs.find? (fun o => o.enroll_secret_hash == secretHash)

/- `agent_id` carries a unique index, so `.single()` is a `find?`. -/
def getServerByAgentId (servers : List ServerRow) (agentId : String) : Option ServerRow :=
  servers.find? (fun sv => sv.agent_id == agentId)

/- ## The ingest handler (functions/ingest/index.ts) -/

structure IngestRequest where
  httpMethod : String
  authHeader : Option String
  timestamp : Option String
  nonce : Option String
  signature : Option String
  body : String
deriving DecidableEq

inductive IngestResult where
  | ok (received_at : Int)
  | invalid (details : List Violation)
  | err (status : Nat) (msg : String)
deriving DecidableEq

/- The field set written by the ingest handler's server update (and,
identically, by the enroll handler's re-enrollment update): mutable facts
plus `last_seen`; identity and secret columns are untouched. -/
def updateServerFacts (p : RawServer) (now : Int) (sv : ServerRow) : ServerRow :=
  { sv with
    hostname := p.hostname
    os_name := p.os_name
    os_version := p.os_version
    kernel := p.kernel
    cpu_model := p.cpu_model
    cores := p.cores
    mem_bytes := p.mem_bytes
    agent_version := p.agent_version
    last_seen := now }

def hbRowOf (orgId svId : String) (h : RawHeartbeat) : HeartbeatRow :=
  { org_id := orgId
    server_id := svId
    ts := h.ts
    uptime_s := h.uptime_s
    load_1m := h.load_m1
    load_5m := h.load_m5
    load_15m := h.load_m15
    cpu_pct := h.cpu_pct
    mem_used := h.mem_used
    mem_free := h.mem_free
    swap_used := h.swap_used }

def diskRowOf (orgId svId : String) (now : Int) (d : RawDisk) : DiskRow :=
  { org_id := orgId
    server_id := svId
    ts := now
    mount := d.mount
    fs := d.fs
    size_bytes := d.size_bytes
    used_bytes := d.used_bytes
    inodes_used := d.inodes_used }

def ifaceRowOf (orgId svId : String) (now : Int) (f : RawNetIface) : NetIfaceRow :=
  { org_id := orgId
    server_id := svId
    ts := now
    name := f.name
    mac := f.mac
    ipv4 := f.ipv4
    ipv6 := f.ipv6
    rx_bytes := f.rx_bytes
    tx_bytes := f.tx_bytes }

def processRowOf (orgId svId : String) (now : Int) (pr : RawProcess) : ProcessRow :=
  { org_id := orgId
    server_id := svId
    ts := now
    pid := pr.pid
    cmd := pr.cmd
    cpu_pct := pr.cpu_pct
    mem_bytes := pr.mem_bytes
    usr := pr.usr }

def packageRowOf (orgId svId : String) (now : Int) (pk : RawPackage) : PackageRow :=
  { org_id := orgId
    server_id := svId
    ts := now
    name := pk.name
    version := pk.version
    status := pk.status }

def updateRowOf (orgId svId : String) (now : Int) (u : RawUpdates) : UpdateRow :=
  { org_id := orgId
    server_id := svId
    ts := now
    security_updates_count := u.security_updates_count
    regular_updates_count := u.regular_updates_count }

def logRowOf (orgId svId : String) (lg : RawLog) : LogRow :=
  { org_id := orgId
    server_id := svId
    ts := lg.ts
    source := lg.source
    level := lg.level
    message := lg.message }

/- Steps 1-8 of the handler's "transaction-like operations": eight separate
store writes with no transaction.  The supabase client reports write errors
in its return value and the handler never inspects them, so a failed write
(modelled by the `fail` oracle, one index per operation) is silently
skipped while the remaining writes still run and the handler still
answers 200. -/
def runCommit (fail : Nat → Bool) (s : Store) (sv : ServerRow) (orgId : String)
    (p : RawPayload) (now : Int) : Store :=
  { s with
    servers := if fail 0 then s.servers else
      s.servers.map (fun x =>
        if x.agent_id == sv.agent_id then updateServerFacts p.server now x else x)
    heartbeats := if fail 1 then s.heartbeats else
      s.heartbeats ++ [hbRowOf orgId sv.id p.heartbeat]
    disks := if fail 2 then s.disks else
      s.disks ++ p.disks.map (diskRowOf orgId sv.id now)
    network_ifaces := if fail 3 then s.network_ifaces else
      s.network_ifaces ++ p.network_ifaces.map (ifaceRowOf orgId sv.id now)
    processes := if fail 4 then s.processes else
      s.processes ++ p.processes.map (processRowOf orgId sv.id now)
    packages := if fail 5 then s.packages else
      s.packages ++ p.packages.map (packageRowOf orgId sv.id now)
    updates := if fail 6 then s.updates else
      (match p.updates with
       | none => s.updates
       | some u => s.updates ++ [updateRowOf orgId sv.id now u])
    logs := if fail 7 then s.logs else
      s.logs ++ p.logs.map (logRowOf orgId sv.id) }

/- The ingest handler, in source order: method, required headers, timestamp
freshness, JWT, server lookup, org consistency, nonce replay check, HMAC,
`storeNonce`, `JSON.parse`, zod validation, then the commit writes. -/
def ingest (ext : Ext) (fail : Nat → Bool) (now : Int) (s : Store)
    (req : IngestRequest) : IngestResult × Store :=
  if req.httpMethod ≠ "POST" then (.err 405 "Method not allowed", s) else
  match req.authHeader with
  | none => (.err 400 "Missing required headers", s)
  | some authHeader =>
    match req.timestamp with
    | none => (.err 400 "Missing required headers", s)
    | some timestamp =>
      match req.nonce with
      | none => (.err 400 "Missing required headers", s)
      | some nonce =>
        match req.signature with
        | none => (.err 400 "Missing required headers", s)
        | some signature =>
          if validateTimestamp ext now timestamp then
            match ext.verifyJWT (stripBearer authHeader) with
            | none => (.err 401 "JWT verification failed", s)
            | some (agentId, orgId) =>
              match getServerByAgentId s.servers agentId with
              | none => (.err 403 "Server not found", s)
              | some server =>
                if server.org_id == orgId then
                  if isNonceUsed s.api_nonces orgId agentId nonce then
                    (.err 409 "Nonce already used (replay detected)", s)
                  else
                    if verifyHMAC ext server.hmac_secret timestamp nonce
                        (ext.sha256 req.body) signature then
                      let s1 : Store :=
                        { s with api_nonces := storeNonce s.api_nonces orgId agentId nonce now }
                      match ext.parseJson req.body with
                      | none => (.err 500 "Internal server error", s1)
                      | some p =>
                        let viols := safeParseIngest p
                        if viols.isEmpty then (.ok now, runCommit fail s1 server orgId p now)
                        else (.invalid viols, s1)
                    else (.err 403 "Invalid HMAC signature", s)
                else (.err 403 "Organization mismatch", s)
          else (.err 401 "Invalid or expired timestamp", s)

/- ## The enroll handler (functions/enroll/index.ts) -/

structure EnrollReq where
  httpMethod : String
  org_enroll_secret : String
  host_facts : RawServer
deriving DecidableEq

/- `EnrollRequestSchema`: the secret must be at least 32 characters and the
host facts satisfy `ServerIdentitySchema` (minus `agent_id`). -/
def enrollValidate (r : EnrollReq) : List Violation :=
  (if r.org_enroll_secret.length < 32 then [⟨["org_enroll_secret"], "too_small"⟩] else []) ++
  validateServer ["host_facts"] r.host_facts

inductive EnrollResult where
  | ok (agent_id agent_jwt refresh_token hmac_secret org_id : String)
  | invalid (details : List Violation)
  | err (status : Nat) (msg : String)
deriving DecidableEq

/- Fresh random material the handler would draw (`crypto.randomUUID`,
`generateSecret`, the row id default `gen_random_uuid()`). -/
structure FreshCred where
  agent_id : String
  hmac_secret : String
  refresh_token : String
  server_row_id : String
deriving DecidableEq

/- `(org_id, machine_id)` carries a unique index; `.single()` yields a row
exactly when the filter matches exactly one row. -/
def findServerByOrgMachine (servers : List ServerRow) (orgId machineId : String) :
    Option ServerRow :=
  match servers.filter (fun sv => sv.org_id == orgId && sv.machine_id == machineId) with
  | [sv] => some sv
  | _ => none

def newServerRow (fresh : FreshCred) (orgId : String) (f : RawServer) (now : Int) :
    ServerRow :=
  { id := fresh.server_row_id
    org_id := orgId
    agent_id := fresh.agent_id
    hostname := f.hostname
    machine_id := f.machine_id
    os_name := f.os_name
    os_version := f.os_version
    kernel := f.kernel
    cpu_model := f.cpu_model
    cores := f.cores
    mem_bytes := f.mem_bytes
    agent_version := f.agent_version
    hmac_secret := fresh.hmac_secret
    refresh_token := fresh.refresh_token
    first_seen := now
    last_seen := now }

/- The enroll handler: validate, hash the secret (`hashSecret` is SHA-256),
look up the org, then either re-enrollment (return the stored credentials,
update facts and last-seen) or a new enrollment (insert a fresh row).  A
fresh JWT is minted on every call. -/
def enroll (ext : Ext) (fresh : FreshCred) (now : Int) (s : Store) (r : EnrollReq) :
    EnrollResult × Store :=
  if r.httpMethod ≠ "POST" then (.err 405 "Method not allowed", s) else
  let viols := enrollValidate r
  if viols.isEmpty then
    match getOrgBySecretHash s.orgs (ext.sha256 r.org_enroll_secret) with
    | none => (.err 403 "Invalid enrollment secret", s)
    | some org =>
      match findServerByOrgMachine s.servers org.id r.host_facts.machine_id with
      | some existing =>
        (.ok existing.agent_id (ext.mintJWT existing.agent_id org.id)
            existing.refresh_token existing.hmac_secret org.id,
         { s with servers := s.servers.map (fun x =>
             if x.agent_id == existing.agent_id
             then updateServerFacts r.host_facts now x else x) })
      | none =>
        (.ok fresh.agent_id (ext.mintJWT fresh.agent_id org.id)
            fresh.refresh_token fresh.hmac_secret org.id,
         { s with servers := s.servers ++ [newServerRow fresh org.id r.host_facts now] })
  else (.invalid viols, s)

/- ## Shared cron-secret gate of the three scheduled handlers.
`if (cronSecret && authHeader !== Bearer cronSecret) return 401`: the
check only applies when the CRON_SECRET environment value is non-empty
(JavaScript truthiness of the string). -/
def cronRejected (cronSecret : String) (authHeader : Option String) : Bool :=
  cronSecret != "" && authHeader != some ("Bearer " ++ cronSecret)

inductive JobResult where
  | ok (summary : List (String × Int))
  | err (status : Nat) (msg : String)
deriving DecidableEq

/- ## The offline detector (functions/offline-detector/index.ts) -/

def OFFLINE_THRESHOLD_MS : Int := 600000

def isOpenOffline (sid : String) (a : AlertRow) : Bool :=
  a.server_id == sid && a.type == "offline" && a.status == "open"

def openOfflineAlerts (alerts : List AlertRow) (sid : String) : List AlertRow :=
  alerts.filter (isOpenOffline sid)

def openCount (alerts : List AlertRow) (sid : String) : Nat :=
  (openOfflineAlerts alerts sid).length

/- `.single()` on the open-offline query: a row exactly when there is
exactly one. -/
def singleOpenOffline (alerts : List AlertRow) (sid : String) : Option AlertRow :=
  match openOfflineAlerts alerts sid with
  | [a] => some a
  | _ => none

def newOfflineAlert (id : Nat) (now : Int) (sv : ServerRow) : AlertRow :=
  { id := id
    org_id := sv.org_id
    server_id := sv.id
    ts := now
    type := "offline"
    severity := "critical"
    message := "Server " ++ sv.hostname ++ " is offline"
    status := "open" }

/- First loop: for each server with `last_seen < cutoff`, insert an open
offline alert unless the `.single()` check found one. -/
def createOfflineAlerts (now : Int) (svs : List ServerRow) (alerts : List AlertRow)
    (nextId created : Nat) : List AlertRow × Nat × Nat :=
  match svs with
  | [] => (alerts, nextId, created)
  | sv :: rest =>
    match singleOpenOffline alerts sv.id with
    | some _ => createOfflineAlerts now rest alerts nextId created
    | none =>
      createOfflineAlerts now rest (alerts ++ [newOfflineAlert nextId now sv])
        (nextId + 1) (created + 1)

/- `update({status: "cleared"}).eq("id", ...)`: set every row with the
given alert id to cleared. -/
def mapClear (alerts : List AlertRow) (i : Nat) : List AlertRow :=
  alerts.map (fun x => if x.id == i then { x with status := "cleared" } else x)

/- Second loop: for each server with `last_seen >= cutoff`, clear the
single open offline alert (update by alert id) when one exists. -/
def clearOfflineAlerts (svs : List ServerRow) (alerts : List AlertRow) (cleared : Nat) :
    List AlertRow × Nat :=
  match svs with
  | [] => (alerts, cleared)
  | sv :: rest =>
    match singleOpenOffline alerts sv.id with
    | some a => clearOfflineAlerts rest (mapClear alerts a.id) (cleared + 1)
    | none => clearOfflineAlerts rest alerts cleared

structure DetectOut where
  st : Store
  offlineCount : Nat
  created : Nat
  cleared : Nat

def offlineDetect (now : Int) (s : Store) : DetectOut :=
  let cutoff := now - OFFLINE_THRESHOLD_MS
  let offline := s.servers.filter (fun sv => decide (sv.last_seen < cutoff))
  let r1 := createOfflineAlerts now offline s.alerts s.next_alert_id 0
  let online := s.servers.filter (fun sv => decide (cutoff ≤ sv.last_seen))
  let r2 := clearOfflineAlerts online r1.1 0
  { st := { s with alerts := r2.1, next_alert_id := r1.2.1 }
    offlineCount := offline.length
    created := r1.2.2
    cleared := r2.2 }

def offlineDetectorHandler (cronSecret : String) (authHeader : Option String) (now : Int)
    (s : Store) : JobResult × Store :=
  if cronRejected cronSecret authHeader then (.err 401 "Unauthorized", s)
  else
    let out := offlineDetect now s
    (.ok [("offline_servers", (out.offlineCount : Int)), ("alerts_created", (out.created : Int)),
        ("alerts_cleared", (out.cleared : Int))],
     out.st)

/- ## The rollup builder (rollup-builder handler).
The two SQL statements `rollup1mQuery` and `rollup1hQuery` are embedded as
functions over the heartbeat rows: GROUP BY (date_trunc(ts), org_id,
server_id) over `ts >= lo AND ts < hi`, aggregates AVG / PERCENTILE_CONT
0.95 / MAX / COUNT, written back with
`ON CONFLICT (server_id, bucket) DO UPDATE SET <aggregate columns>`.
Numeric aggregates are modelled in `Rat`. -/

def truncMinute (ts : Int) : Int := (Int.fdiv ts 60000) * 60000

def truncHour (ts : Int) : Int := (Int.fdiv ts 3600000) * 3600000

def ratAvg (l : List Rat) : Rat :=
  if l.length = 0 then 0 else l.sum / (l.length : Rat)

def intAvg (l : List Int) : Rat :=
  if l.length = 0 then 0 else ((l.sum : Int) : Rat) / (l.length : Rat)

/- `PERCENTILE_CONT(0.95) WITHIN GROUP (ORDER BY v)`: sort, take the
interpolated value at rank 0.95 * (n - 1). -/
def percentileCont95 (l : List Rat) : Rat :=
  let v := l.insertionSort (fun a b => a ≤ b)
  let n := v.length
  if n = 0 then 0
  else
    let m : Nat := 19 * (n - 1)
    let i : Nat := m / 20
    let j : Nat := (m + 19) / 20
    let frac : Rat := (m : Rat) / 20 - (i : Rat)
    v.getD i 0 + frac * (v.getD j 0 - v.getD i 0)

/- Generic `INSERT ... ON CONFLICT (key) DO UPDATE SET`: if a row with the
key exists, overwrite its aggregate columns via `upd`, else append. -/
def upsertBy {α : Type} {β : Type} [BEq β] (key : α → β) (upd : α → α → α)
    (tbl : List α) (r : α) : List α :=
  if tbl.any (fun x => key x == key r) then
    tbl.map (fun x => if key x == key r then upd x r else x)
  else tbl ++ [r]

def key1m (x : Rollup1mRow) : String × Int := (x.server_id, x.bucket)

def key1h (x : Rollup1hRow) : String × Int := (x.server_id, x.bucket)

/- The `DO UPDATE SET` column list of `rollup1mQuery` (key and org columns
are not in the SET list). -/
def setVals1m (x r : Rollup1mRow) : Rollup1mRow :=
  { x with
    cpu_avg := r.cpu_avg
    cpu_p95 := r.cpu_p95
    load1_avg := r.load1_avg
    load5_avg := r.load5_avg
    load15_avg := r.load15_avg
    mem_used_avg := r.mem_used_avg
    mem_free_avg := r.mem_free_avg
    swap_used_avg := r.swap_used_avg
    sample_count := r.sample_count }

def setVals1h (x r : Rollup1hRow) : Rollup1hRow :=
  { x with
    cpu_avg := r.cpu_avg
    cpu_p95 := r.cpu_p95
    cpu_max := r.cpu_max
    load1_avg := r.load1_avg
    load5_avg := r.load5_avg
    load15_avg := r.load15_avg
    mem_used_avg := r.mem_used_avg
    mem_free_avg := r.mem_free_avg
    swap_used_avg := r.swap_used_avg
    sample_count := r.sample_count }

def inWindow (lo hi : Int) (h : HeartbeatRow) : Bool :=
  decide (lo ≤ h.ts) && decide (h.ts < hi)

def groupKeys (trunc : Int → Int) (rows : List HeartbeatRow) :
    List (Int × String × String) :=
  ((rows.map (fun h => (trunc h.ts, h.org_id, h.server_id))).dedup)

def groupOf (trunc : Int → Int) (rows : List HeartbeatRow) (k : Int × String × String) :
    List HeartbeatRow :=
  rows.filter (fun h => trunc h.ts == k.1 && h.org_id == k.2.1 && h.server_id == k.2.2)

/- The SELECT of `rollup1mQuery`: one aggregate row per group. -/
def rollupRows1m (hbs : List HeartbeatRow) (lo hi : Int) : List Rollup1mRow :=
  let rows := hbs.filter (inWindow lo hi)
  (groupKeys truncMinute rows).map (fun k =>
    let g := groupOf truncMinute rows k
    { bucket := k.1
      org_id := k.2.1
      server_id := k.2.2
      cpu_avg := ratAvg (g.map (fun h => h.cpu_pct))
      cpu_p95 := percentileCont95 (g.map (fun h => h.cpu_pct))
      load1_avg := ratAvg (g.map (fun h => h.load_1m))
      load5_avg := ratAvg (g.map (fun h => h.load_5m))
      load15_avg := ratAvg (g.map (fun h => h.load_15m))
      mem_used_avg := intAvg (g.map (fun h => h.mem_used))
      mem_free_avg := intAvg (g.map (fun h => h.mem_free))
      swap_used_avg := intAvg (g.map (fun h => h.swap_used))
      sample_count := g.length })

/- The SELECT of `rollup1hQuery` (adds `MAX(cpu_pct)`). -/
def rollupRows1h (hbs : List HeartbeatRow) (lo hi : Int) : List Rollup1hRow :=
  let rows := hbs.filter (inWindow lo hi)
  (groupKeys truncHour rows).map (fun k =>
    let g := groupOf truncHour rows k
    { bucket := k.1
      org_id := k.2.1
      server_id := k.2.2
      cpu_avg := ratAvg (g.map (fun h => h.cpu_pct))
      cpu_p95 := percentileCont95 (g.map (fun h => h.cpu_pct))
      cpu_max := (g.map (fun h => h.cpu_pct)).foldr max 0
      load1_avg := ratAvg (g.map (fun h => h.load_1m))
      load5_avg := ratAvg (g.map (fun h => h.load_5m))
      load15_avg := ratAvg (g.map (fun h => h.load_15m))
      mem_used_avg := intAvg (g.map (fun h => h.mem_used))
      mem_free_avg := intAvg (g.map (fun h => h.mem_free))
      swap_used_avg := intAvg (g.map (fun h => h.swap_used))
      sample_count := g.length })

/- Executing `rollup1mQuery` with parameters `[lo, hi]` against a rollup
table state. -/
def rollup1mApply (hbs : List HeartbeatRow) (lo hi : Int) (tbl : List Rollup1mRow) :
    List Rollup1mRow :=
  (rollupRows1m hbs lo hi).foldl (upsertBy key1m setVals1m) tbl

def rollup1hApply (hbs : List HeartbeatRow) (lo hi : Int) (tbl : List Rollup1hRow) :
    List Rollup1hRow :=
  (rollupRows1h hbs lo hi).foldl (upsertBy key1h setVals1h) tbl

/- The rollup-builder handler: cron gate, then the 1-minute statement over
the window starting at the minute bucket two minutes back (the 1-hour
statement is built but never executed by the handler), then a 200 summary
with the computed bucket starts. -/
def rollupBuilderHandler (cronSecret : String) (authHeader : Option String) (now : Int)
    (s : Store) : JobResult × Store :=
  if cronRejected cronSecret authHeader then (.err 401 "Unauthorized", s)
  else
    let bucket1m := truncMinute (now - 2 * 60 * 1000)
    let bucket1h := truncHour (now - 60 * 60 * 1000)
    (.ok [("bucket_1m", bucket1m), ("bucket_1h", bucket1h)],
     { s with rollup_1m := rollup1mApply s.heartbeats bucket1m now s.rollup_1m })

/- ## The nonce-cleanup handler (cron gate plus `cleanupOldNonces` with a
10-minute horizon). -/
def nonceCleanupHandler (cronSecret : String) (authHeader : Option String) (now : Int)
    (s : Store) : JobResult × Store :=
  if cronRejected cronSecret authHeader then (.err 401 "Unauthorized", s)
  else
    let r := cleanupOldNonces s.api_nonces (now - 10 * 60 * 1000)
    (.ok [("nonces_deleted", (r.2 : Int))], { s with api_nonces := r.1 })

/- ## Interleaving model of the replay check under two concurrent identical
requests.
Each request executes, in order: the `isNonceUsed` read, the `storeNonce`
insert (which fails on the unique index over (org_id, agent_id, nonce)
when the triple is already present), and the telemetry writes.  The shared
state is whether the nonce triple is stored; a schedule interleaves the
two requests' steps. -/

inductive Phase where
  | atCheck
  | atStore
  | atTelemetry
  | finished
deriving DecidableEq, BEq

structure RThread where
  phase : Phase
  passedCheck : Bool
  storedOk : Bool
  insertedTelemetry : Bool
  failed : Bool
deriving DecidableEq

structure RaceState where
  nonceStored : Bool
  t0 : RThread
  t1 : RThread
deriving DecidableEq

def threadStep (nonceStored : Bool) (th : RThread) : RThread × Bool :=
  match th.phase with
  | .atCheck =>
    if nonceStored then ({ th with failed := true, phase := .finished }, nonceStored)
    else ({ th with passedCheck := true, phase := .atStore }, nonceStored)
  | .atStore =>
    if nonceStored then ({ th with failed := true, phase := .finished }, nonceStored)
    else ({ th with storedOk := true, phase := .atTelemetry }, true)
  | .atTelemetry => ({ th with insertedTelemetry := true, phase := .finished }, nonceStored)
  | .finished => (th, nonceStored)

def raceStep (s : RaceState) (i : Bool) : RaceState :=
  if i then
    let r := threadStep s.nonceStored s.t1
    { s with t1 := r.1, nonceStored := r.2 }
  else
    let r := threadStep s.nonceStored s.t0
    { s with t0 := r.1, nonceStored := r.2 }

def raceRun (sched : List Bool) (s : RaceState) : RaceState :=
  sched.foldl raceStep s

def raceInit : RaceState :=
  { nonceStored := false
    t0 := { phase := .atCheck, passedCheck := false, storedOk := false,
            insertedTelemetry := false, failed := false }
    t1 := { phase := .atCheck, passedCheck := false, storedOk := false,
            insertedTelemetry := false, failed := false } }

/- Invariant of the interleaving model: a thread only writes telemetry
after its own successful `storeNonce`, successful stores set the shared
flag, and two successful stores are impossible. -/
def raceInv (s : RaceState) : Prop :=
  ¬(s.t0.storedOk = true ∧ s.t1.storedOk = true) ∧
  (s.t0.insertedTelemetry = true → s.t0.storedOk = true) ∧
  (s.t1.insertedTelemetry = true → s.t1.storedOk = true) ∧
  (s.t0.phase = Phase.atTelemetry → s.t0.storedOk = true) ∧
  (s.t1.phase = Phase.atTelemetry → s.t1.storedOk = true) ∧
  (s.t0.storedOk = true ∨ s.t1.storedOk = true → s.nonceStored = true)

/- A row `r` is stable for a table: some row carries its key, and every
row carrying its key is a fixed point of the conflict update. -/
def UpsertStable {α β : Type} (key : α → β) (upd : α → α → α) (r : α)
    (tbl : List α) : Prop :=
  (∃ x ∈ tbl, key x = key r) ∧ ∀ x ∈ tbl, key x = key r → upd x r = x

/- ## Concrete fixtures used by witnesses and counterexamples. -/

def serverFactsT : RawServer :=
  { hostname := "h1"
    machine_id := "m1"
    os_name := "Ubuntu"
    os_version := "22.04"
    kernel := "k1"
    cpu_model := "c1"
    cores := 1
    mem_bytes := 1
    agent_version := "0.1.0"
    }

def hbT : RawHeartbeat :=
  { ts := 0
    uptime_s := 5
    load_m1 := 1
    load_m5 := 1
    load_m15 := 1
    cpu_pct := 50
    mem_used := 10
    mem_free := 10
    swap_used := 0 }

def diskT : RawDisk :=
  { mount := "/"
    fs := "ext4"
    size_bytes := 100
    used_bytes := 50
    inodes_used := none }

def procT : RawProcess :=
  { pid := 1
    cmd := "init"
    cpu_pct := 0
    mem_bytes := 1
    usr := "root" }

def logT : RawLog :=
  { ts := 0
    source := "journal"
    level := "info"
    message := "boot" }

def payloadGood : RawPayload :=
  { server := serverFactsT
    heartbeat := hbT
    disks := [diskT]
    network_ifaces := []
    processes := [procT]
    packages := []
    updates := none
    logs := [logT] }

/- Heartbeat cpu_pct over 100: fails `z.number().min(0).max(100)`. -/
def payloadBad : RawPayload :=
  { payloadGood with heartbeat := { hbT with cpu_pct := 200 } }

/- 51 processes and 201 log lines: exceeds both list caps. -/
def payloadCaps : RawPayload :=
  { payloadGood with
    processes := List.replicate 51 procT
    logs := List.replicate 201 logT }

def extT : Ext :=
  { parseDate := fun s =>
      if s == "T0" then some 0
      else if s == "Tfwd" then some 301000
      else if s == "Tpast" then some (-301000)
      else none
    sha256 := fun b => "sha(" ++ b ++ ")"
    hmacSha256 := fun k m => "mac(" ++ k ++ "," ++ m ++ ")"
    verifyJWT := fun t => if t == "tokA" then some ("agentA", "orgA") else none
    parseJson := fun b =>
      if b == "bodyGood" then some payloadGood
      else if b == "bodyBad" then some payloadBad
      else if b == "bodyCaps" then some payloadCaps
      else none
    mintJWT := fun a o => "jwt(" ++ a ++ "," ++ o ++ ")" }

def orgT : OrgRow :=
  { id := "orgA"
    name := "acme"
    enroll_secret_hash := "sha(secret-secret-secret-secret-32ch)" }

def svT : ServerRow :=
  { id := "srv1"
    org_id := "orgA"
    agent_id := "agentA"
    hostname := "h1"
    machine_id := "m1"
    os_name := "Ubuntu"
    os_version := "22.04"
    kernel := "k1"
    cpu_model := "c1"
    cores := 1
    mem_bytes := 1
    agent_version := "0.1.0"
    hmac_secret := "sek"
    refresh_token := "rt"
    first_seen := 0
    last_seen := 0 }

def stT : Store :=
  { orgs := [orgT]
    servers := [svT]
    heartbeats := []
    disks := []
    network_ifaces := []
    processes := []
    packages := []
    updates := []
    logs := []
    alerts := []
    api_nonces := []
    rollup_1m := []
    rollup_1h := []
    next_alert_id := 0 }

def ffNone : Nat → Bool := fun _ => false

/- The heartbeat insert (commit step 1) fails in the store. -/
def ffHeartbeat : Nat → Bool := fun n => n == 1

def reqOf (body : String) : IngestRequest :=
  { httpMethod := "POST"
    authHeader := some "Bearer tokA"
    timestamp := some "T0"
    nonce := some "n1"
    signature := some (extT.hmacSha256 "sek" (canonicalMessage "T0" "n1" (extT.sha256 body)))
    body := body }

def reqGood : IngestRequest := reqOf "bodyGood"

def reqFwd : IngestRequest := { reqGood with timestamp := some "Tfwd" }

def reqPast : IngestRequest := { reqGood with timestamp := some "Tpast" }

def reqBad : IngestRequest := reqOf "bodyBad"

def reqCaps : IngestRequest := reqOf "bodyCaps"

def enrollReqT : EnrollReq :=
  { httpMethod := "POST"
    org_enroll_secret := "secret-secret-secret-secret-32ch"
    host_facts := serverFactsT }

def freshT1 : FreshCred :=
  { agent_id := "agentN1"
    hmac_secret := "hmN1"
    refresh_token := "rtN1"
    server_row_id := "srvN1" }

def freshT2 : FreshCred :=
  { agent_id := "agentN2"
    hmac_secret := "hmN2"
    refresh_token := "rtN2"
    server_row_id := "srvN2" }

/- A second org whose servers list does not contain machine m1. -/
def stFresh : Store := { stT with servers := [] }

def svOff : ServerRow :=
  { svT with id := "off1", agent_id := "agentOff", machine_id := "mOff", last_seen := 0 }

def svOn : ServerRow :=
  { svT with id := "on1", agent_id := "agentOn", machine_id := "mOn", last_seen := 699000 }

def alertOn : AlertRow :=
  { id := 0
    org_id := "orgA"
    server_id := "on1"
    ts := 0
    type := "offline"
    severity := "critical"
    message := "Server h1 is offline"
    status := "open" }

def stC7 : Store :=
  { stT with servers := [svOff, svOn], alerts := [alertOn], next_alert_id := 1 }

def hbsW : List HeartbeatRow := [hbRowOf "orgA" "srv1" hbT]

/- The durable credential columns of a server row: host identity, signing
secret, rotation token. -/
def credProj (v : ServerRow) : String × String × String :=
  (v.agent_id, v.hmac_secret, v.refresh_token)

/- ## Theorems -/

/-- Claim C5: an ingestion request whose X-Timestamp parses to a time more
than five minutes (300000 ms) from server time, in either direction, is
answered 401 (stale or future timestamp) with the store untouched, for
every choice of the remaining verification machinery (JWT verifier, HMAC,
store contents): no later verification step can influence the outcome. -/
theorem ingest_rejects_stale_timestamp (ext : Ext) (fail : Nat → Bool) (now : Int)
    (s : Store) (req : IngestRequest) {a t n sig : String} {tms : Int}
    (hm : req.httpMethod = "POST")
    (ha : req.authHeader = some a) (ht : req.timestamp = some t)
    (hn : req.nonce = some n) (hs : req.signature = some sig)
    (hp : ext.parseDate t = some tms)
    (hskew : 300000 < (now - tms).natAbs) :
    ingest ext fail now s req = (.err 401 "Invalid or expired timestamp", s) := by
  have hv : validateTimestamp ext now t = false := by
    simp only [validateTimestamp, hp, decide_eq_false_iff_not]
    omega
  simp [ingest, hm, ha, ht, hn, hs, hv]

theorem ingest_rejects_stale_timestamp_witness :
    ingest extT ffNone 0 stT reqFwd = (.err 401 "Invalid or expired timestamp", stT) ∧
    ingest extT ffNone 0 stT reqPast = (.err 401 "Invalid or expired timestamp", stT) :=
  ⟨ingest_rejects_stale_timestamp extT ffNone 0 stT reqFwd rfl rfl rfl rfl rfl rfl
      (by decide),
   ingest_rejects_stale_timestamp extT ffNone 0 stT reqPast rfl rfl rfl rfl rfl rfl
      (by decide)⟩

/-- Claim C3 counterexample: the replay check is a separate `isNonceUsed`
read followed later by a `storeNonce` write, not one atomic insert-as-check.
Under the schedule that interleaves the two reads before either write,
BOTH concurrent identical requests pass the replay check, which the
claimed atomic operation would make impossible. -/
theorem replay_check_both_pass_cex :
    (raceRun [false, true] raceInit).t0.passedCheck = true ∧
    (raceRun [false, true] raceInit).t1.passedCheck = true := by decide

theorem raceStep_inv (s : RaceState) (i : Bool) (h : raceInv s) :
    raceInv (raceStep s i) := by
  obtain ⟨hA, hB0, hB1, hC0, hC1, hD⟩ := h
  cases i
  · cases h0 : s.t0.phase <;> by_cases hns : s.nonceStored = true <;>
      simp_all [raceStep, threadStep, raceInv]
  · cases h1 : s.t1.phase <;> by_cases hns : s.nonceStored = true <;>
      simp_all [raceStep, threadStep, raceInv]

theorem raceRun_inv (sched : List Bool) (s : RaceState) (h : raceInv s) :
    raceInv (raceRun sched s) := by
  induction sched generalizing s with
  | nil => exact h
  | cons b rest ih => exact ih (raceStep s b) (raceStep_inv s b h)

/-- Claim C3 amended: the replay check is a read (`isNonceUsed`) followed
later by a write (`storeNonce`), so two concurrent identical requests can
both pass the check; but because `storeNonce` inserts into `api_nonces`,
which carries a unique index on (org_id, agent_id, nonce), the second
insert fails (500), so under every interleaving at most one of the two
requests inserts telemetry. -/
theorem race_at_most_one_inserts (sched : List Bool) :
    ¬((raceRun sched raceInit).t0.insertedTelemetry = true ∧
      (raceRun sched raceInit).t1.insertedTelemetry = true) := by
  have h := raceRun_inv sched raceInit (by simp [raceInv, raceInit])
  rintro ⟨h0, h1⟩
  exact h.1 ⟨h.2.1 h0, h.2.2.1 h1⟩

/-- Claim C9: each scheduled-job endpoint (offline detector, rollup
builder, nonce cleanup) answers 401 and leaves the store untouched when
the authorization header does not carry the configured invocation secret
(absent headers included), and otherwise runs its job and answers 200 with
its summary of affected rows. -/
theorem cron_endpoints_auth (cronSecret : String) (hdr : Option String) (now : Int)
    (s : Store) (hcfg : cronSecret ≠ "") :
    (hdr ≠ some ("Bearer " ++ cronSecret) →
      offlineDetectorHandler cronSecret hdr now s = (.err 401 "Unauthorized", s) ∧
      rollupBuilderHandler cronSecret hdr now s = (.err 401 "Unauthorized", s) ∧
      nonceCleanupHandler cronSecret hdr now s = (.err 401 "Unauthorized", s)) ∧
    (hdr = some ("Bearer " ++ cronSecret) →
      offlineDetectorHandler cronSecret hdr now s =
        (.ok [("offline_servers", ((offlineDetect now s).offlineCount : Int)),
              ("alerts_created", ((offlineDetect now s).created : Int)),
              ("alerts_cleared", ((offlineDetect now s).cleared : Int))],
         (offlineDetect now s).st) ∧
      rollupBuilderHandler cronSecret hdr now s =
        (.ok [("bucket_1m", truncMinute (now - 2 * 60 * 1000)),
              ("bucket_1h", truncHour (now - 60 * 60 * 1000))],
         { s with rollup_1m :=
            rollup1mApply s.heartbeats (truncMinute (now - 2 * 60 * 1000)) now s.rollup_1m }) ∧
      nonceCleanupHandler cronSecret hdr now s =
        (.ok [("nonces_deleted", ((cleanupOldNonces s.api_nonces (now - 10 * 60 * 1000)).2 : Int))],
         { s with api_nonces := (cleanupOldNonces s.api_nonces (now - 10 * 60 * 1000)).1 })) := by
  constructor
  · intro hne
    have hrej : cronRejected cronSecret hdr = true := by
      simp [cronRejected, hcfg, hne]
    simp [offlineDetectorHandler, rollupBuilderHandler, nonceCleanupHandler, hrej]
  · intro heq
    have hrej : cronRejected cronSecret hdr = false := by
      simp [cronRejected, heq]
    simp [offlineDetectorHandler, rollupBuilderHandler, nonceCleanupHandler, hrej]

theorem cron_endpoints_auth_witness :
    ("csec" : String) ≠ "" ∧
    offlineDetectorHandler "csec" none 0 stT = (.err 401 "Unauthorized", stT) ∧
    nonceCleanupHandler "csec" (some "Bearer wrong") 0 stT = (.err 401 "Unauthorized", stT) ∧
    offlineDetectorHandler "csec" (some "Bearer csec") 0 stT =
      (.ok [("offline_servers", ((offlineDetect 0 stT).offlineCount : Int)),
            ("alerts_created", ((offlineDetect 0 stT).created : Int)),
            ("alerts_cleared", ((offlineDetect 0 stT).cleared : Int))],
       (offlineDetect 0 stT).st) := by
  refine ⟨by decide, ?_, ?_, ?_⟩
  · exact ((cron_endpoints_auth "csec" none 0 stT (by decide)).1 (by decide)).1
  · exact ((cron_endpoints_auth "csec" (some "Bearer wrong") 0 stT (by decide)).1
      (by decide)).2.2
  · exact ((cron_endpoints_auth "csec" (some "Bearer csec") 0 stT (by decide)).2 rfl).1

theorem map_eq_self_of {α : Type} (l : List α) (f : α → α) (h : ∀ x ∈ l, f x = x) :
    l.map f = l := by
  induction l with
  | nil => rfl
  | cons a t ih =>
    simp only [List.map_cons, h a (List.mem_cons_self a t), List.cons.injEq, true_and]
    exact ih (fun x hx => h x (List.mem_cons_of_mem a hx))

theorem upsertBy_of_stable {α β : Type} [BEq β] [LawfulBEq β] (key : α → β)
    (upd : α → α → α) (r : α) (tbl : List α) (h : UpsertStable key upd r tbl) :
    upsertBy key upd tbl r = tbl := by
  obtain ⟨⟨x, hx, hk⟩, hfix⟩ := h
  have hany : (tbl.any fun z => key z == key r) = true :=
    List.any_eq_true.mpr ⟨x, hx, by simp [hk]⟩
  unfold upsertBy
  rw [hany]
  simp only [if_true]
  refine map_eq_self_of _ _ (fun y hy => ?_)
  by_cases hky : (key y == key r) = true
  · simp only [hky, if_true]
    exact hfix y hy (beq_iff_eq.mp hky)
  · rw [Bool.not_eq_true] at hky
    simp [hky]

theorem stable_upsertBy_self {α β : Type} [BEq β] [LawfulBEq β] (key : α → β)
    (upd : α → α → α) (r : α) (tbl : List α)
    (hkey : ∀ x y, key (upd x y) = key x)
    (hupd2 : ∀ x y, upd (upd x y) y = upd x y)
    (hself : ∀ x, upd x x = x) :
    UpsertStable key upd r (upsertBy key upd tbl r) := by
  unfold upsertBy
  by_cases hany : (tbl.any fun z => key z == key r) = true
  · rw [hany]
    simp only [if_true]
    obtain ⟨x, hx, hkx⟩ := List.any_eq_true.mp hany
    constructor
    · refine ⟨upd x r, List.mem_map.mpr ⟨x, hx, by simp [hkx]⟩, ?_⟩
      rw [hkey]
      exact beq_iff_eq.mp hkx
    · intro y hy hky
      obtain ⟨x0, hx0, rfl⟩ := List.mem_map.mp hy
      by_cases hk0 : (key x0 == key r) = true
      · simp only [hk0, if_true] at hky ⊢
        exact hupd2 x0 r
      · rw [Bool.not_eq_true] at hk0
        simp only [hk0, if_false] at hky ⊢
        exact absurd (beq_iff_eq.mpr hky) (by simp [hk0])
  · rw [Bool.not_eq_true] at hany
    simp only [hany, Bool.false_eq_true, if_false]
    constructor
    · exact ⟨r, by simp, rfl⟩
    · intro y hy hky
      rcases List.mem_append.mp hy with hyl | hyr
      · have := List.any_eq_false.mp hany y hyl
        exact absurd (beq_iff_eq.mpr hky) (by simpa using this)
      · rw [List.mem_singleton.mp hyr]
        exact hself r

theorem stable_upsertBy_other {α β : Type} [BEq β] [LawfulBEq β] (key : α → β)
    (upd : α → α → α) (r r' : α) (tbl : List α)
    (hkey : ∀ x y, key (upd x y) = key x)
    (hne : key r' ≠ key r)
    (h : UpsertStable key upd r tbl) :
    UpsertStable key upd r (upsertBy key upd tbl r') := by
  obtain ⟨⟨x, hx, hk⟩, hfix⟩ := h
  have hxne : (key x == key r') = false :=
    beq_eq_false_iff_ne.mpr (by rw [hk]; exact fun he => hne he.symm)
  unfold upsertBy
  by_cases hany : (tbl.any fun z => key z == key r') = true
  · rw [hany]
    simp only [if_true]
    constructor
    · exact ⟨x, List.mem_map.mpr ⟨x, hx, by simp [hxne]⟩, hk⟩
    · intro y hy hky
      obtain ⟨x0, hx0, rfl⟩ := List.mem_map.mp hy
      by_cases hk0 : (key x0 == key r') = true
      · simp only [hk0, if_true] at hky ⊢
        rw [hkey] at hky
        exact absurd (beq_iff_eq.mp hk0 ▸ hky : key r' = key r) hne
      · rw [Bool.not_eq_true] at hk0
        simp only [hk0, if_false] at hky ⊢
        exact hfix x0 hx0 hky
  · rw [Bool.not_eq_true] at hany
    simp only [hany, Bool.false_eq_true, if_false]
    constructor
    · exact ⟨x, List.mem_append.mpr (Or.inl hx), hk⟩
    · intro y hy hky
      rcases List.mem_append.mp hy with hyl | hyr
      · exact hfix y hyl hky
      · rw [List.mem_singleton.mp hyr] at hky ⊢
        exact absurd hky hne

theorem stable_foldl {α β : Type} [BEq β] [LawfulBEq β] (key : α → β)
    (upd : α → α → α) (r : α) (rows tbl : List α)
    (hkey : ∀ x y, key (upd x y) = key x)
    (hall : ∀ r' ∈ rows, key r' ≠ key r)
    (h : UpsertStable key upd r tbl) :
    UpsertStable key upd r (rows.foldl (upsertBy key upd) tbl) := by
  induction rows generalizing tbl with
  | nil => exact h
  | cons a rest ih =>
    rw [List.foldl_cons]
    exact ih _ (fun r' hr' => hall r' (List.mem_cons_of_mem a hr'))
      (stable_upsertBy_other key upd r a tbl hkey (hall a (List.mem_cons_self a rest)) h)

theorem stable_after_foldl {α β : Type} [BEq β] [LawfulBEq β] (key : α → β)
    (upd : α → α → α) (r : α) (rows tbl : List α)
    (hkey : ∀ x y, key (upd x y) = key x)
    (hupd2 : ∀ x y, upd (upd x y) y = upd x y)
    (hself : ∀ x, upd x x = x)
    (hpw : rows.Pairwise (fun a b => key a ≠ key b)) (hr : r ∈ rows) :
    UpsertStable key upd r (rows.foldl (upsertBy key upd) tbl) := by
  induction rows generalizing tbl with
  | nil => cases hr
  | cons a rest ih =>
    rw [List.foldl_cons]
    rcases List.mem_cons.mp hr with rfl | hr'
    · refine stable_foldl key upd r rest _ hkey
        (fun r' hr' => Ne.symm ((List.pairwise_cons.mp hpw).1 r' hr'))
        (stable_upsertBy_self key upd r tbl hkey hupd2 hself)
    · exact ih _ (List.pairwise_cons.mp hpw).2 hr'

theorem foldl_upsert_fix {α β : Type} [BEq β] [LawfulBEq β] (key : α → β)
    (upd : α → α → α) (rows tbl : List α)
    (h : ∀ r ∈ rows, UpsertStable key upd r tbl) :
    rows.foldl (upsertBy key upd) tbl = tbl := by
  induction rows with
  | nil => rfl
  | cons a rest ih =>
    rw [List.foldl_cons, upsertBy_of_stable key upd a tbl (h a (List.mem_cons_self a rest))]
    exact ih (fun r hr => h r (List.mem_cons_of_mem a hr))

theorem foldl_upsert_idem {α β : Type} [BEq β] [LawfulBEq β] (key : α → β)
    (upd : α → α → α) (rows tbl : List α)
    (hkey : ∀ x y, key (upd x y) = key x)
    (hupd2 : ∀ x y, upd (upd x y) y = upd x y)
    (hself : ∀ x, upd x x = x)
    (hpw : rows.Pairwise (fun a b => key a ≠ key b)) :
    rows.foldl (upsertBy key upd) (rows.foldl (upsertBy key upd) tbl) =
      rows.foldl (upsertBy key upd) tbl :=
  foldl_upsert_fix key upd rows _
    (fun r hr => stable_after_foldl key upd r rows tbl hkey hupd2 hself hpw hr)

theorem groupKeys_mem {trunc : Int → Int} {rows : List HeartbeatRow}
    {k : Int × String × String} (hk : k ∈ groupKeys trunc rows) :
    ∃ hb ∈ rows, (trunc hb.ts, hb.org_id, hb.server_id) = k := by
  unfold groupKeys at hk
  rw [List.mem_dedup] at hk
  exact List.mem_map.mp hk

theorem groupKeys_pairwise (trunc : Int → Int) (hbs : List HeartbeatRow) (lo hi : Int)
    (horg : ∀ h1 ∈ hbs, ∀ h2 ∈ hbs, h1.server_id = h2.server_id → h1.org_id = h2.org_id) :
    (groupKeys trunc (hbs.filter (inWindow lo hi))).Pairwise
      (fun k k' => (k.2.2, k.1) ≠ (k'.2.2, k'.1)) := by
  have hnd : (groupKeys trunc (hbs.filter (inWindow lo hi))).Nodup := List.nodup_dedup _
  refine List.Pairwise.imp_of_mem ?_ hnd
  intro k k' hk hk' hne hkeq
  apply hne
  obtain ⟨h1, hm1, he1⟩ := groupKeys_mem hk
  obtain ⟨h2, hm2, he2⟩ := groupKeys_mem hk'
  have hb1 : h1 ∈ hbs := (List.mem_filter.mp hm1).1
  have hb2 : h2 ∈ hbs := (List.mem_filter.mp hm2).1
  rw [Prod.ext_iff] at hkeq
  subst he1
  subst he2
  simp only at hkeq
  have hsv : h1.server_id = h2.server_id := hkeq.1
  have horg12 : h1.org_id = h2.org_id := horg h1 hb1 h2 hb2 hsv
  simp [Prod.ext_iff, hkeq.2, hsv, horg12]

theorem rollupRows1m_pairwise (hbs : List HeartbeatRow) (lo hi : Int)
    (horg : ∀ h1 ∈ hbs, ∀ h2 ∈ hbs, h1.server_id = h2.server_id → h1.org_id = h2.org_id) :
    (rollupRows1m hbs lo hi).Pairwise (fun a b => key1m a ≠ key1m b) := by
  unfold rollupRows1m
  rw [List.pairwise_map]
  simpa [key1m] using groupKeys_pairwise truncMinute hbs lo hi horg

theorem rollupRows1h_pairwise (hbs : List HeartbeatRow) (lo hi : Int)
    (horg : ∀ h1 ∈ hbs, ∀ h2 ∈ hbs, h1.server_id = h2.server_id → h1.org_id = h2.org_id) :
    (rollupRows1h hbs lo hi).Pairwise (fun a b => key1h a ≠ key1h b) := by
  unfold rollupRows1h
  rw [List.pairwise_map]
  simpa [key1h] using groupKeys_pairwise truncHour hbs lo hi horg

/-- Claim C8: recomputing a rollup bucket from the same unchanged raw
heartbeat rows is deterministic and idempotent, at both the 1-minute and
1-hour granularities: running the upsert statement a second time
overwrites every bucket row with the same aggregates, so the rollup table
is unchanged (no accumulation).  The hypothesis records that a server id
belongs to a single org, the invariant of the servers table. -/
theorem rollup_recompute_idempotent (hbs : List HeartbeatRow) (lo hi : Int)
    (t1 : List Rollup1mRow) (t2 : List Rollup1hRow)
    (horg : ∀ h1 ∈ hbs, ∀ h2 ∈ hbs, h1.server_id = h2.server_id → h1.org_id = h2.org_id) :
    rollup1mApply hbs lo hi (rollup1mApply hbs lo hi t1) = rollup1mApply hbs lo hi t1 ∧
    rollup1hApply hbs lo hi (rollup1hApply hbs lo hi t2) = rollup1hApply hbs lo hi t2 :=
  ⟨foldl_upsert_idem key1m setVals1m _ t1 (fun _ _ => rfl) (fun _ _ => rfl) (fun _ => rfl)
      (rollupRows1m_pairwise hbs lo hi horg),
   foldl_upsert_idem key1h setVals1h _ t2 (fun _ _ => rfl) (fun _ _ => rfl) (fun _ => rfl)
      (rollupRows1h_pairwise hbs lo hi horg)⟩

theorem rollup_recompute_idempotent_witness :
    (∀ h1 ∈ hbsW, ∀ h2 ∈ hbsW, h1.server_id = h2.server_id → h1.org_id = h2.org_id) ∧
    (rollup1mApply hbsW 0 60000 (rollup1mApply hbsW 0 60000 []) =
        rollup1mApply hbsW 0 60000 [] ∧
     rollup1hApply hbsW 0 3600000 (rollup1hApply hbsW 0 3600000 []) =
        rollup1hApply hbsW 0 3600000 []) :=
  ⟨by decide, rollup_recompute_idempotent hbsW 0 60000 [] [] (by decide)⟩

theorem procCap_mem (p : RawPayload) (h : 50 < p.processes.length) :
    (⟨["processes"], "too_big"⟩ : Violation) ∈ safeParseIngest p := by
  unfold safeParseIngest validateProcesses
  simp [h]

theorem logCap_mem (p : RawPayload) (h : 200 < p.logs.length) :
    (⟨["logs"], "too_big"⟩ : Violation) ∈ safeParseIngest p := by
  unfold safeParseIngest validateLogs
  simp [h]

theorem isEmpty_false_of_mem {α : Type} {x : α} {l : List α} (h : x ∈ l) :
    l.isEmpty = false := by
  cases l with
  | nil => cases h
  | cons a t => rfl

/-- Claim C6: an authenticated submission whose process list exceeds 50
entries or whose log list exceeds 200 entries is rejected wholesale with
422: the response carries the full list of schema violations (with a
too_big violation for each exceeded cap), and no row of the telemetry
batch is stored — the store gains only the replay-nonce record. -/
theorem ingest_rejects_over_cap (ext : Ext) (fail : Nat → Bool) (now : Int)
    (s : Store) (req : IngestRequest) {a t n sig aid oid : String}
    {sv : ServerRow} {p : RawPayload}
    (hm : req.httpMethod = "POST") (ha : req.authHeader = some a)
    (ht : req.timestamp = some t) (hn : req.nonce = some n) (hs : req.signature = some sig)
    (hts : validateTimestamp ext now t = true)
    (hjwt : ext.verifyJWT (stripBearer a) = some (aid, oid))
    (hsv : getServerByAgentId s.servers aid = some sv)
    (horg : sv.org_id = oid)
    (hnonce : isNonceUsed s.api_nonces oid aid n = false)
    (hhmac : verifyHMAC ext sv.hmac_secret t n (ext.sha256 req.body) sig = true)
    (hjson : ext.parseJson req.body = some p)
    (hcap : 50 < p.processes.length ∨ 200 < p.logs.length) :
    ingest ext fail now s req =
      (.invalid (safeParseIngest p),
       { s with api_nonces := storeNonce s.api_nonces oid aid n now }) ∧
    (50 < p.processes.length →
      (⟨["processes"], "too_big"⟩ : Violation) ∈ safeParseIngest p) ∧
    (200 < p.logs.length →
      (⟨["logs"], "too_big"⟩ : Violation) ∈ safeParseIngest p) := by
  have hne : (safeParseIngest p).isEmpty = false := by
    rcases hcap with h | h
    · exact isEmpty_false_of_mem (procCap_mem p h)
    · exact isEmpty_false_of_mem (logCap_mem p h)
  refine ⟨?_, fun h => procCap_mem p h, fun h => logCap_mem p h⟩
  simp [ingest, hm, ha, ht, hn, hs, hts, hjwt, hsv, horg, hnonce, hhmac, hjson, hne]

theorem ingest_rejects_over_cap_witness :
    ingest extT ffNone 0 stT reqCaps =
      (.invalid (safeParseIngest payloadCaps),
       { stT with api_nonces := storeNonce stT.api_nonces "orgA" "agentA" "n1" 0 }) ∧
    (50 < payloadCaps.processes.length →
      (⟨["processes"], "too_big"⟩ : Violation) ∈ safeParseIngest payloadCaps) ∧
    (200 < payloadCaps.logs.length →
      (⟨["logs"], "too_big"⟩ : Violation) ∈ safeParseIngest payloadCaps) :=
  ingest_rejects_over_cap extT ffNone 0 stT reqCaps rfl rfl rfl rfl rfl (by decide) rfl
    rfl rfl (by decide) (by decide) rfl (by decide)

/-- Claim C10: the ingest handler stores the nonce before schema validation
runs, so a request whose payload fails validation (422) still consumes its
nonce; any later otherwise-authenticated request for the same host reusing
that nonce — in particular a corrected resubmission — is answered 409 and
changes nothing. -/
theorem ingest_nonce_consumed_on_422 (ext : Ext) (fail fail2 : Nat → Bool)
    (now now2 : Int) (s : Store) (req req2 : IngestRequest)
    {a t n sig aid oid : String} {sv : ServerRow} {p : RawPayload}
    {a2 t2 sig2 : String}
    (hm : req.httpMethod = "POST") (ha : req.authHeader = some a)
    (ht : req.timestamp = some t) (hn : req.nonce = some n) (hs : req.signature = some sig)
    (hts : validateTimestamp ext now t = true)
    (hjwt : ext.verifyJWT (stripBearer a) = some (aid, oid))
    (hsv : getServerByAgentId s.servers aid = some sv)
    (horg : sv.org_id = oid)
    (hnonce : isNonceUsed s.api_nonces oid aid n = false)
    (hhmac : verifyHMAC ext sv.hmac_secret t n (ext.sha256 req.body) sig = true)
    (hjson : ext.parseJson req.body = some p)
    (hbad : (safeParseIngest p).isEmpty = false)
    (gm : req2.httpMethod = "POST") (ga : req2.authHeader = some a2)
    (gt : req2.timestamp = some t2) (gn : req2.nonce = some n)
    (gs : req2.signature = some sig2)
    (gts : validateTimestamp ext now2 t2 = true)
    (gjwt : ext.verifyJWT (stripBearer a2) = some (aid, oid)) :
    ingest ext fail now s req =
      (.invalid (safeParseIngest p),
       { s with api_nonces := storeNonce s.api_nonces oid aid n now }) ∧
    ingest ext fail2 now2
        { s with api_nonces := storeNonce s.api_nonces oid aid n now } req2 =
      (.err 409 "Nonce already used (replay detected)",
       { s with api_nonces := storeNonce s.api_nonces oid aid n now }) := by
  constructor
  · simp [ingest, hm, ha, ht, hn, hs, hts, hjwt, hsv, horg, hnonce, hhmac, hjson, hbad]
  · have hused : isNonceUsed (storeNonce s.api_nonces oid aid n now) oid aid n = true := by
      simp [isNonceUsed, storeNonce]
    simp [ingest, gm, ga, gt, gn, gs, gts, gjwt, hsv, horg, hused]

theorem ingest_nonce_consumed_on_422_witness :
    ingest extT ffNone 0 stT reqBad =
      (.invalid (safeParseIngest payloadBad),
       { stT with api_nonces := storeNonce stT.api_nonces "orgA" "agentA" "n1" 0 }) ∧
    ingest extT ffNone 0
        { stT with api_nonces := storeNonce stT.api_nonces "orgA" "agentA" "n1" 0 } reqGood =
      (.err 409 "Nonce already used (replay detected)",
       { stT with api_nonces := storeNonce stT.api_nonces "orgA" "agentA" "n1" 0 }) :=
  ingest_nonce_consumed_on_422 extT ffNone ffNone 0 0 stT reqBad reqGood
    rfl rfl rfl rfl rfl (by decide) rfl rfl rfl (by decide) (by decide) rfl (by decide)
    rfl rfl rfl rfl rfl (by decide) rfl

theorem runCommit_api_nonces (fail : Nat → Bool) (s : Store) (sv : ServerRow)
    (orgId : String) (p : RawPayload) (now : Int) :
    (runCommit fail s sv orgId p now).api_nonces = s.api_nonces := rfl

theorem runCommit_servers (fail : Nat → Bool) (s : Store) (sv : ServerRow)
    (orgId : String) (p : RawPayload) (now : Int) :
    (runCommit fail s sv orgId p now).servers =
      if fail 0 then s.servers else
        s.servers.map (fun x =>
          if x.agent_id == sv.agent_id then updateServerFacts p.server now x else x) := rfl

theorem getServerByAgentId_map (l : List ServerRow) (g : ServerRow → ServerRow)
    (hg : ∀ x, (g x).agent_id = x.agent_id) (aid : String) :
    getServerByAgentId (l.map g) aid = (getServerByAgentId l aid).map g := by
  induction l with
  | nil => rfl
  | cons x t ih =>
    by_cases hx : (x.agent_id == aid) = true
    · unfold getServerByAgentId
      rw [List.map_cons, List.find?_cons_of_pos _ (by simpa [hg] using hx),
        List.find?_cons_of_pos _ (by simpa using hx)]
      rfl
    · unfold getServerByAgentId at ih ⊢
      rw [List.map_cons, List.find?_cons_of_neg _ (by simpa [hg] using hx),
        List.find?_cons_of_neg _ (by simpa using hx)]
      exact ih

theorem getServerByAgentId_runCommit (fail : Nat → Bool) (s : Store) (sv : ServerRow)
    (orgId : String) (p : RawPayload) (now : Int) (aid : String) {x : ServerRow}
    (hx : getServerByAgentId s.servers aid = some x) :
    ∃ y, getServerByAgentId (runCommit fail s sv orgId p now).servers aid = some y ∧
      y.org_id = x.org_id ∧ y.agent_id = x.agent_id ∧ y.hmac_secret = x.hmac_secret := by
  rw [runCommit_servers]
  by_cases hf : fail 0 = true
  · exact ⟨x, by simp [hf, hx], rfl, rfl, rfl⟩
  · rw [Bool.not_eq_true] at hf
    simp only [hf, Bool.false_eq_true, if_false]
    rw [getServerByAgentId_map _ _
      (fun z => by by_cases hz : (z.agent_id == sv.agent_id) = true <;> simp [hz, updateServerFacts]),
      hx]
    refine ⟨_, rfl, ?_, ?_, ?_⟩ <;>
      by_cases hz : (x.agent_id == sv.agent_id) = true <;> simp [hz, updateServerFacts]

/-- Claim C2: once an ingestion request has been accepted (200), submitting
the identical request again — same org, host and nonce — is answered 409
(replay detected) and leaves the store exactly as it was: no second
telemetry row is inserted for the batch. -/
theorem ingest_replay_after_success (ext : Ext) (fail1 fail2 : Nat → Bool) (now : Int)
    (s s1 : Store) (req : IngestRequest) (r : Int)
    (hok : ingest ext fail1 now s req = (.ok r, s1)) :
    ingest ext fail2 now s1 req =
      (.err 409 "Nonce already used (replay detected)", s1) := by
  simp only [ingest] at hok
  split at hok
  · exact absurd hok (by simp)
  next hmeth =>
  split at hok
  · exact absurd hok (by simp)
  next a ha =>
  split at hok
  · exact absurd hok (by simp)
  next t ht =>
  split at hok
  · exact absurd hok (by simp)
  next n hn =>
  split at hok
  · exact absurd hok (by simp)
  next sig hsig =>
  split at hok
  case isFalse => exact absurd hok (by simp)
  case isTrue hts =>
  split at hok
  · exact absurd hok (by simp)
  next agentId orgId hjwt =>
  split at hok
  · exact absurd hok (by simp)
  next server hsv =>
  split at hok
  case isFalse => exact absurd hok (by simp)
  case isTrue horg =>
  split at hok
  case isTrue => exact absurd hok (by simp)
  case isFalse hnonce =>
  split at hok
  case isFalse => exact absurd hok (by simp)
  case isTrue hhmac =>
  split at hok
  · exact absurd hok (by simp)
  next p hjson =>
  split at hok
  case isFalse => exact absurd hok (by simp)
  case isTrue hvempty =>
  simp only [Prod.mk.injEq, IngestResult.ok.injEq] at hok
  obtain ⟨-, hcommit⟩ := hok
  subst hcommit
  have hm : req.httpMethod = "POST" := not_not.mp hmeth
  obtain ⟨y, hy, hyorg, -, -⟩ :=
    getServerByAgentId_runCommit fail1
      { s with api_nonces := storeNonce s.api_nonces orgId agentId n now }
      server orgId p now agentId hsv
  have horg' : (y.org_id == orgId) = true := by rw [hyorg]; exact horg
  have hused : isNonceUsed
      (runCommit fail1 { s with api_nonces := storeNonce s.api_nonces orgId agentId n now }
        server orgId p now).api_nonces orgId agentId n = true := by
    rw [runCommit_api_nonces]
    simp [isNonceUsed, storeNonce]
  simp [ingest, hm, ha, ht, hn, hsig, hts, hjwt, hy, horg', hused]

theorem ingest_replay_after_success_witness :
    (ingest extT ffNone 0 stT reqGood).1 = IngestResult.ok 0 ∧
    ingest extT ffNone 0 (ingest extT ffNone 0 stT reqGood).2 reqGood =
      (.err 409 "Nonce already used (replay detected)",
       (ingest extT ffNone 0 stT reqGood).2) :=
  ⟨by decide,
   ingest_replay_after_success extT ffNone ffNone 0 stT _ reqGood 0 (by decide)⟩

theorem filter_map_pres (l : List ServerRow) (g : ServerRow → ServerRow)
    (q : ServerRow → Bool) (hq : ∀ x, q (g x) = q x) :
    (l.map g).filter q = (l.filter q).map g := by
  induction l with
  | nil => rfl
  | cons x t ih =>
    by_cases hx : q x = true
    · simp [List.filter_cons, hq, hx, ih]
    · rw [Bool.not_eq_true] at hx
      simp [List.filter_cons, hq, hx, ih]

theorem map_map_eq {α β : Type} (l : List α) (g : α → α) (f : α → β)
    (h : ∀ x, f (g x) = f x) : (l.map g).map f = l.map f := by
  induction l with
  | nil => rfl
  | cons x t ih => simp [h, ih]

theorem findServerByOrgMachine_eq_some {l : List ServerRow} {o m : String}
    {sv : ServerRow} :
    findServerByOrgMachine l o m = some sv ↔
      l.filter (fun x => x.org_id == o && x.machine_id == m) = [sv] := by
  rcases hf : l.filter (fun x => x.org_id == o && x.machine_id == m) with
    _ | ⟨x, _ | ⟨y, t⟩⟩ <;> simp [findServerByOrgMachine, hf]

theorem credProj_update_map (l : List ServerRow) (aidv : String) (fcts : RawServer)
    (nw : Int) :
    (l.map (fun x =>
      if x.agent_id == aidv then updateServerFacts fcts nw x else x)).map credProj =
      l.map credProj :=
  map_map_eq _ _ _ (fun x => by
    by_cases hz : (x.agent_id == aidv) = true <;> simp [hz, credProj, updateServerFacts])

theorem enroll_ok_of_find (ext : Ext) (f2 : FreshCred) (n2 : Int) (s1 s2 : Store)
    (r2 : EnrollReq) {org : OrgRow} {svx : ServerRow}
    {a2 j2 rt2 hm2 o2 : String}
    (horg2 : getOrgBySecretHash s1.orgs (ext.sha256 r2.org_enroll_secret) = some org)
    (hfind : findServerByOrgMachine s1.servers org.id r2.host_facts.machine_id = some svx)
    (h2 : enroll ext f2 n2 s1 r2 = (.ok a2 j2 rt2 hm2 o2, s2)) :
    a2 = svx.agent_id ∧ j2 = ext.mintJWT svx.agent_id org.id ∧
    rt2 = svx.refresh_token ∧ hm2 = svx.hmac_secret ∧ o2 = org.id ∧
    s2 = { s1 with servers := s1.servers.map (fun x =>
      if x.agent_id == svx.agent_id then updateServerFacts r2.host_facts n2 x else x) } := by
  simp only [enroll] at h2
  split at h2
  · exact absurd h2 (by simp)
  next hmeth =>
  split at h2
  case isFalse => exact absurd h2 (by simp)
  case isTrue hval =>
  split at h2
  · exact absurd h2 (by simp)
  next org' horg' =>
  rw [horg2] at horg'
  injection horg' with horg'
  subst horg'
  split at h2
  next svy hfind' =>
    rw [hfind] at hfind'
    injection hfind' with hfind'
    subst hfind'
    simp only [Prod.mk.injEq, EnrollResult.ok.injEq] at h2
    obtain ⟨⟨ha, hj, hrt, hhm, ho⟩, hs2⟩ := h2
    exact ⟨ha.symm, hj.symm, hrt.symm, hhm.symm, ho.symm, hs2.symm⟩
  next hfindn =>
    rw [hfind] at hfindn
    exact absurd hfindn (by simp)

/-- Claim C4: two valid enroll calls with the same tenant secret and the
same fingerprint return the same host id and the same signing secret (and
the same rotation token); no duplicate credential row is minted, no stored
signing secret or rotation token changes, and only the access token is
freshly minted on each call. -/
theorem enroll_idempotent (ext : Ext) (f1 f2 : FreshCred) (n1 n2 : Int)
    (s s1 s2 : Store) (r1 r2 : EnrollReq)
    {a1 j1 rt1 hm1 o1 a2 j2 rt2 hm2 o2 : String}
    (hsec : r2.org_enroll_secret = r1.org_enroll_secret)
    (hmid : r2.host_facts.machine_id = r1.host_facts.machine_id)
    (hdup : ∀ o : String, (s.servers.filter (fun sv =>
      sv.org_id == o && sv.machine_id == r1.host_facts.machine_id)).length ≤ 1)
    (h1 : enroll ext f1 n1 s r1 = (.ok a1 j1 rt1 hm1 o1, s1))
    (h2 : enroll ext f2 n2 s1 r2 = (.ok a2 j2 rt2 hm2 o2, s2)) :
    a2 = a1 ∧ hm2 = hm1 ∧ rt2 = rt1 ∧ o2 = o1 ∧
    j1 = ext.mintJWT a1 o1 ∧ j2 = ext.mintJWT a1 o1 ∧
    s2.servers.length = s1.servers.length ∧
    s2.servers.map credProj = s1.servers.map credProj := by
  simp only [enroll] at h1
  split at h1
  · exact absurd h1 (by simp)
  next hmeth1 =>
  split at h1
  case isFalse => exact absurd h1 (by simp)
  case isTrue hval1 =>
  split at h1
  · exact absurd h1 (by simp)
  next org horg1 =>
  split at h1
  next sv hfind1 =>
    simp only [Prod.mk.injEq, EnrollResult.ok.injEq] at h1
    obtain ⟨⟨ha1, hj1, hrt1, hhm1, ho1⟩, hs1⟩ := h1
    subst hs1
    have horg2 : getOrgBySecretHash
        ({ s with servers := s.servers.map (fun x =>
          if x.agent_id == sv.agent_id then updateServerFacts r1.host_facts n1 x else x)
          } : Store).orgs
        (ext.sha256 r2.org_enroll_secret) = some org := by
      rw [hsec]; exact horg1
    have hfilter1 : s.servers.filter (fun x =>
        x.org_id == org.id && x.machine_id == r1.host_facts.machine_id) = [sv] :=
      findServerByOrgMachine_eq_some.mp hfind1
    have hfind2 : findServerByOrgMachine
        ({ s with servers := s.servers.map (fun x =>
          if x.agent_id == sv.agent_id then updateServerFacts r1.host_facts n1 x else x)
          } : Store).servers
        org.id r2.host_facts.machine_id =
        some ((fun x => if x.agent_id == sv.agent_id
          then updateServerFacts r1.host_facts n1 x else x) sv) := by
      rw [hmid]
      refine findServerByOrgMachine_eq_some.mpr ?_
      show (s.servers.map _).filter _ = _
      rw [filter_map_pres _ _ _ (fun x => by
        by_cases hz : (x.agent_id == sv.agent_id) = true <;>
          simp [hz, updateServerFacts]), hfilter1]
      rfl
    obtain ⟨ga, gj, grt, ghm, go, gs2⟩ := enroll_ok_of_find ext f2 n2 _ s2 r2 horg2 hfind2 h2
    have hgsv : (fun x => if x.agent_id == sv.agent_id
        then updateServerFacts r1.host_facts n1 x else x) sv =
        updateServerFacts r1.host_facts n1 sv := by simp
    rw [hgsv] at ga gj grt ghm
    refine ⟨?_, ?_, ?_, ?_, ?_, ?_, ?_, ?_⟩
    · rw [ga, ← ha1]; rfl
    · rw [ghm, ← hhm1]; rfl
    · rw [grt, ← hrt1]; rfl
    · rw [go, ho1]
    · rw [← hj1, ← ha1, ← ho1]
    · rw [gj, ← ha1, ← ho1]; rfl
    · rw [gs2]; simp
    · rw [gs2]
      exact credProj_update_map _ _ _ _
  next hfindn1 =>
    simp only [Prod.mk.injEq, EnrollResult.ok.injEq] at h1
    obtain ⟨⟨ha1, hj1, hrt1, hhm1, ho1⟩, hs1⟩ := h1
    subst hs1
    have horg2 : getOrgBySecretHash
        ({ s with servers := s.servers ++ [newServerRow f1 org.id r1.host_facts n1] }
          : Store).orgs
        (ext.sha256 r2.org_enroll_secret) = some org := by
      rw [hsec]; exact horg1
    have hfe : s.servers.filter (fun x =>
        x.org_id == org.id && x.machine_id == r1.host_facts.machine_id) = [] := by
      rcases hf : s.servers.filter (fun x =>
          x.org_id == org.id && x.machine_id == r1.host_facts.machine_id) with
        _ | ⟨z, _ | ⟨w, tl⟩⟩
      · exact hf
      · exact absurd (findServerByOrgMachine_eq_some.mpr hf)
          (by rw [hfindn1]; simp)
      · have := hdup org.id
        rw [hf] at this
        simp at this
    have hfind2 : findServerByOrgMachine
        ({ s with servers := s.servers ++ [newServerRow f1 org.id r1.host_facts n1] }
          : Store).servers
        org.id r2.host_facts.machine_id =
        some (newServerRow f1 org.id r1.host_facts n1) := by
      rw [hmid]
      refine findServerByOrgMachine_eq_some.mpr ?_
      show (s.servers ++ _).filter _ = _
      rw [List.filter_append, hfe]
      simp [newServerRow]
    obtain ⟨ga, gj, grt, ghm, go, gs2⟩ := enroll_ok_of_find ext f2 n2 _ s2 r2 horg2 hfind2 h2
    refine ⟨?_, ?_, ?_, ?_, ?_, ?_, ?_, ?_⟩
    · rw [ga, ← ha1]; rfl
    · rw [ghm, ← hhm1]; rfl
    · rw [grt, ← hrt1]; rfl
    · rw [go, ho1]
    · rw [← hj1, ← ha1, ← ho1]
    · rw [gj, ← ha1, ← ho1]; rfl
    · rw [gs2]; simp
    · rw [gs2]
      exact credProj_update_map _ _ _ _

theorem enroll_idempotent_witness :
    (∀ o : String, (stT.servers.filter (fun sv =>
      sv.org_id == o && sv.machine_id == enrollReqT.host_facts.machine_id)).length ≤ 1) ∧
    (("agentA" : String) = "agentA" ∧ ("sek" : String) = "sek" ∧
     ("rt" : String) = "rt" ∧ ("orgA" : String) = "orgA" ∧
     ("jwt(agentA,orgA)" : String) = extT.mintJWT "agentA" "orgA" ∧
     ("jwt(agentA,orgA)" : String) = extT.mintJWT "agentA" "orgA" ∧
     ((enroll extT freshT2 6 (enroll extT freshT1 5 stT enrollReqT).2 enrollReqT).2).servers.length
       = ((enroll extT freshT1 5 stT enrollReqT).2).servers.length ∧
     ((enroll extT freshT2 6 (enroll extT freshT1 5 stT enrollReqT).2 enrollReqT).2).servers.map
         credProj
       = ((enroll extT freshT1 5 stT enrollReqT).2).servers.map credProj) :=
  ⟨fun o => List.length_filter_le _ _,
   enroll_idempotent extT freshT1 freshT2 5 6 stT _ _ enrollReqT enrollReqT rfl rfl
     (fun o => List.length_filter_le _ _) (by decide) (by decide)⟩

/-- Claim C1 evaluated at a failing input: an authenticated, schema-valid
batch whose heartbeat insert fails in the store (commit step 1, modelled
by the failure oracle) is still answered 200; the heartbeat row is
missing while the disk and process rows of the same batch persist — the
commit phase is not atomic and partial telemetry is visible, contradicting
the all-or-nothing claim. -/
theorem ingest_commit_not_atomic :
    (ingest extT ffHeartbeat 0 stT reqGood).1 = IngestResult.ok 0 ∧
    ((ingest extT ffHeartbeat 0 stT reqGood).2).heartbeats = [] ∧
    ((ingest extT ffHeartbeat 0 stT reqGood).2).disks =
      [diskRowOf "orgA" "srv1" 0 diskT] ∧
    ((ingest extT ffHeartbeat 0 stT reqGood).2).processes =
      [processRowOf "orgA" "srv1" 0 procT] ∧
    (ingest extT ffHeartbeat 0 stT reqGood).2 ≠ stT := by decide

theorem openCount_cons (z : AlertRow) (l : List AlertRow) (y : String) :
    openCount (z :: l) y =
      (if isOpenOffline y z = true then 1 else 0) + openCount l y := by
  unfold openCount openOfflineAlerts
  by_cases h : isOpenOffline y z = true
  · simp [List.filter_cons, h, Nat.add_comm]
  · rw [Bool.not_eq_true] at h
    simp [List.filter_cons, h]

theorem openCount_append_new (alerts : List AlertRow) (x : String) (nid : Nat)
    (now : Int) (sv : ServerRow) :
    openCount (alerts ++ [newOfflineAlert nid now sv]) x =
      openCount alerts x + (if sv.id = x then 1 else 0) := by
  unfold openCount openOfflineAlerts
  rw [List.filter_append]
  by_cases h : sv.id = x <;>
    simp [isOpenOffline, newOfflineAlert, h]

theorem openCount_zero_of_not_mem {alerts : List AlertRow} {y : String}
    (h : y ∉ alerts.map (fun a => a.server_id)) : openCount alerts y = 0 := by
  induction alerts with
  | nil => rfl
  | cons a l ih =>
    rw [openCount_cons]
    simp only [List.map_cons, List.mem_cons] at h
    push_neg at h
    have h1 : isOpenOffline y a = false := by
      unfold isOpenOffline
      have : (a.server_id == y) = false := beq_eq_false_iff_ne.mpr (fun he => h.1 he.symm)
      simp [this]
    simp [h1, ih h.2]

theorem singleOpenOffline_eq_some {alerts : List AlertRow} {sid : String} {a : AlertRow} :
    singleOpenOffline alerts sid = some a ↔ openOfflineAlerts alerts sid = [a] := by
  rcases hf : openOfflineAlerts alerts sid with _ | ⟨x, _ | ⟨y, t⟩⟩ <;>
    simp [singleOpenOffline, hf]

theorem singleOpenOffline_none_count {alerts : List AlertRow} {sid : String}
    (h : singleOpenOffline alerts sid = none) : openCount alerts sid ≠ 1 := by
  unfold openCount
  rcases hf : openOfflineAlerts alerts sid with _ | ⟨x, _ | ⟨y, t⟩⟩
  · simp
  · exact absurd (singleOpenOffline_eq_some.mpr hf) (by rw [h]; simp)
  · simp

theorem singleOpenOffline_some_count {alerts : List AlertRow} {sid : String}
    {a : AlertRow} (h : singleOpenOffline alerts sid = some a) :
    openCount alerts sid = 1 := by
  unfold openCount
  rw [singleOpenOffline_eq_some.mp h]
  rfl

theorem createOfflineAlerts_count (now : Int) (svs : List ServerRow)
    (alerts : List AlertRow) (nid cr : Nat)
    (hb : ∀ y, openCount alerts y ≤ 1) (x : String) :
    openCount (createOfflineAlerts now svs alerts nid cr).1 x =
      if openCount alerts x = 0 ∧ x ∈ svs.map (fun sv => sv.id) then 1
      else openCount alerts x := by
  induction svs generalizing alerts nid cr with
  | nil => simp [createOfflineAlerts]
  | cons sv rest ih =>
    unfold createOfflineAlerts
    cases hso : singleOpenOffline alerts sv.id with
    | some a =>
      simp only
      rw [ih alerts nid cr hb]
      have hc1 : openCount alerts sv.id = 1 := singleOpenOffline_some_count hso
      by_cases hx : x = sv.id
      · subst hx
        simp [hc1]
      · simp [List.mem_cons, hx]
    | none =>
      simp only
      have hc0 : openCount alerts sv.id = 0 := by
        have h1 := hb sv.id
        have h2 := singleOpenOffline_none_count hso
        omega
      have hb' : ∀ y, openCount (alerts ++ [newOfflineAlert nid now sv]) y ≤ 1 := by
        intro y
        rw [openCount_append_new]
        by_cases hy : sv.id = y
        · subst hy
          simp [hc0]
        · simp only [hy, if_false]
          have := hb y
          omega
      rw [ih _ (nid + 1) (cr + 1) hb']
      rw [openCount_append_new]
      by_cases hx : sv.id = x
      · subst hx
        simp [hc0]
      · simp [Ne.symm hx, hx]

theorem mapClear_ids (alerts : List AlertRow) (i : Nat) :
    (mapClear alerts i).map (fun v => v.id) = alerts.map (fun v => v.id) :=
  map_map_eq _ _ _ (fun x => by by_cases h : (x.id == i) = true <;> simp [h])

theorem openCount_mapClear {alerts : List AlertRow} {sid : String} {a : AlertRow}
    (hnd : (alerts.map (fun v => v.id)).Nodup)
    (ha : openOfflineAlerts alerts sid = [a]) (y : String) :
    openCount (mapClear alerts a.id) y = if y = sid then 0 else openCount alerts y := by
  induction alerts with
  | nil => simp [openOfflineAlerts] at ha
  | cons b l ih =>
    simp only [List.map_cons, List.nodup_cons] at hnd
    unfold mapClear at ih ⊢
    rw [List.map_cons]
    by_cases hob : isOpenOffline sid b = true
    · -- the head is the single open offline alert: it is a
      unfold openOfflineAlerts at ha
      rw [List.filter_cons_of_pos hob] at ha
      have hba : b = a := (List.cons.injEq _ _ _ _).mp ha |>.1
      have hlf : l.filter (isOpenOffline sid) = [] :=
        (List.cons.injEq _ _ _ _).mp ha |>.2
      subst hba
      have hlid : ∀ x ∈ l, (fun x =>
          if x.id == b.id then { x with status := "cleared" } else x) x = x := by
        intro x hx
        have : x.id ≠ b.id := by
          intro he
          exact hnd.1 (List.mem_map.mpr ⟨x, hx, he⟩)
        simp [beq_eq_false_iff_ne.mpr this]
      rw [map_eq_self_of l _ hlid]
      have hself : (b.id == b.id) = true := by simp
      rw [if_pos hself]
      have hcl : ∀ z, isOpenOffline z ({ b with status := "cleared" } : AlertRow) = false := by
        intro z
        simp [isOpenOffline]
      unfold isOpenOffline at hob
      simp only [Bool.and_eq_true, beq_iff_eq] at hob
      rw [openCount_cons, openCount_cons, hcl]
      by_cases hy : y = sid
      · rw [if_pos hy]
        have h0 : openCount l y = 0 := by
          unfold openCount openOfflineAlerts
          rw [hy, hlf]
          rfl
        simp [h0]
      · rw [if_neg hy]
        have hyb : isOpenOffline y b = false := by
          unfold isOpenOffline
          have hne : (b.server_id == y) = false :=
            beq_eq_false_iff_ne.mpr (fun he => hy (he ▸ hob.1.1))
          simp [hne]
        simp [hyb]
    · rw [Bool.not_eq_true] at hob
      unfold openOfflineAlerts at ha
      rw [List.filter_cons_of_neg (by simp [hob])] at ha
      have haid : b.id ≠ a.id := by
        intro he
        have hal : a ∈ l := by
          have hmem : a ∈ List.filter (isOpenOffline sid) l := by
            rw [ha]
            exact List.mem_singleton_self a
          exact (List.mem_filter.mp hmem).1
        exact hnd.1 (List.mem_map.mpr ⟨a, hal, he.symm⟩)
      rw [if_neg (by simp [haid])]
      rw [openCount_cons, openCount_cons, ih hnd.2 ha]
      by_cases hy : y = sid
      · simp [hy, hob]
      · simp [hy]

theorem clearOfflineAlerts_ids (svs : List ServerRow) (alerts : List AlertRow) (cr : Nat) :
    ((clearOfflineAlerts svs alerts cr).1).map (fun v => v.id) =
      alerts.map (fun v => v.id) := by
  induction svs generalizing alerts cr with
  | nil => rfl
  | cons sv rest ih =>
    unfold clearOfflineAlerts
    cases hso : singleOpenOffline alerts sv.id with
    | some a =>
      simp only
      rw [ih (mapClear alerts a.id) (cr + 1), mapClear_ids]
    | none =>
      simp only
      exact ih alerts cr

theorem clearOfflineAlerts_count (svs : List ServerRow) (alerts : List AlertRow) (cr : Nat)
    (hnd : (alerts.map (fun v => v.id)).Nodup)
    (hb : ∀ y, openCount alerts y ≤ 1) (x : String) :
    openCount (clearOfflineAlerts svs alerts cr).1 x =
      if openCount alerts x = 1 ∧ x ∈ svs.map (fun sv => sv.id) then 0
      else openCount alerts x := by
  induction svs generalizing alerts cr with
  | nil => simp [clearOfflineAlerts]
  | cons sv rest ih =>
    unfold clearOfflineAlerts
    cases hso : singleOpenOffline alerts sv.id with
    | none =>
      simp only
      rw [ih alerts cr hnd hb]
      have hc := singleOpenOffline_none_count hso
      by_cases hx : x = sv.id
      · subst hx
        simp [hc]
      · simp [List.mem_cons, hx]
    | some a =>
      simp only
      have hsing := singleOpenOffline_eq_some.mp hso
      have hc1 : openCount alerts sv.id = 1 := singleOpenOffline_some_count hso
      have hmc := openCount_mapClear hnd hsing
      have hnd' : ((mapClear alerts a.id).map (fun v => v.id)).Nodup := by
        rw [mapClear_ids]
        exact hnd
      have hb' : ∀ y, openCount (mapClear alerts a.id) y ≤ 1 := by
        intro y
        rw [hmc y]
        by_cases hy : y = sv.id
        · simp [hy]
        · simp only [hy, if_false]
          exact hb y
      rw [ih (mapClear alerts a.id) (cr + 1) hnd' hb']
      by_cases hx : x = sv.id
      · subst hx
        rw [hmc]
        simp [hc1]
      · rw [hmc]
        simp [List.mem_cons, hx]

theorem createOfflineAlerts_ids (now : Int) (svs : List ServerRow)
    (alerts : List AlertRow) (nid cr : Nat)
    (hbound : ∀ a ∈ alerts, a.id < nid) :
    (∀ a ∈ (createOfflineAlerts now svs alerts nid cr).1,
        a.id < (createOfflineAlerts now svs alerts nid cr).2.1) ∧
    ((alerts.map (fun v => v.id)).Nodup →
      (((createOfflineAlerts now svs alerts nid cr).1).map (fun v => v.id)).Nodup) := by
  induction svs generalizing alerts nid cr with
  | nil => exact ⟨hbound, fun h => h⟩
  | cons sv rest ih =>
    unfold createOfflineAlerts
    cases hso : singleOpenOffline alerts sv.id with
    | some a =>
      simp only
      exact ih alerts nid cr hbound
    | none =>
      simp only
      have hbound' : ∀ a ∈ alerts ++ [newOfflineAlert nid now sv], a.id < nid + 1 := by
        intro a hmem
        rcases List.mem_append.mp hmem with h | h
        · have := hbound a h
          omega
        · rw [List.mem_singleton.mp h]
          simp [newOfflineAlert]
      refine ⟨(ih _ (nid + 1) (cr + 1) hbound').1, fun hnd => (ih _ (nid + 1) (cr + 1) hbound').2 ?_⟩
      rw [List.map_append, List.nodup_append]
      refine ⟨hnd, by simp, ?_⟩
      intro z hz hz'
      obtain ⟨b, hb, rfl⟩ := List.mem_map.mp hz
      have hblt := hbound b hb
      simp [newOfflineAlert] at hz'
      omega

theorem nodup_map_mem_inj {α β : Type} {l : List α} {f : α → β}
    (hnd : (l.map f).Nodup) {x y : α} (hx : x ∈ l) (hy : y ∈ l) (hf : f x = f y) :
    x = y := by
  induction l with
  | nil => cases hx
  | cons a t ih =>
    simp only [List.map_cons, List.nodup_cons] at hnd
    rcases List.mem_cons.mp hx with rfl | hx' <;> rcases List.mem_cons.mp hy with rfl | hy'
    · rfl
    · exact absurd (List.mem_map.mpr ⟨y, hy', hf.symm⟩) hnd.1
    · exact absurd (List.mem_map.mpr ⟨x, hx', hf⟩) hnd.1
    · exact ih hnd.2 hx' hy'

theorem offlineDetect_alerts (now : Int) (s : Store) :
    ((offlineDetect now s).st).alerts =
      (clearOfflineAlerts
        (s.servers.filter (fun sv => decide (now - OFFLINE_THRESHOLD_MS ≤ sv.last_seen)))
        (createOfflineAlerts now
          (s.servers.filter (fun sv => decide (sv.last_seen < now - OFFLINE_THRESHOLD_MS)))
          s.alerts s.next_alert_id 0).1 0).1 := rfl

theorem offlineDetect_servers (now : Int) (s : Store) :
    ((offlineDetect now s).st).servers = s.servers := rfl

theorem offlineDetect_nid (now : Int) (s : Store) :
    ((offlineDetect now s).st).next_alert_id =
      (createOfflineAlerts now
        (s.servers.filter (fun sv => decide (sv.last_seen < now - OFFLINE_THRESHOLD_MS)))
        s.alerts s.next_alert_id 0).2.1 := rfl

/- One detector pass: the per-host open-offline count moves to
  1  if the host is offline and had no open alert,
  0  if the host is online and had exactly one open alert,
  and is otherwise unchanged; well-formedness is preserved. -/
theorem offlineDetect_count (now : Int) (s : Store)
    (hsrv : (s.servers.map (fun v => v.id)).Nodup)
    (hnd : (s.alerts.map (fun v => v.id)).Nodup)
    (hbound : ∀ a ∈ s.alerts, a.id < s.next_alert_id)
    (hb : ∀ y, openCount s.alerts y ≤ 1) :
    (∀ y, openCount ((offlineDetect now s).st).alerts y ≤ 1) ∧
    ((((offlineDetect now s).st).alerts.map (fun v => v.id)).Nodup) ∧
    (∀ a ∈ ((offlineDetect now s).st).alerts,
      a.id < ((offlineDetect now s).st).next_alert_id) ∧
    (∀ h1 ∈ s.servers, h1.last_seen < now - OFFLINE_THRESHOLD_MS →
      openCount s.alerts h1.id = 0 →
      openCount ((offlineDetect now s).st).alerts h1.id = 1) ∧
    (∀ h2 ∈ s.servers, now - OFFLINE_THRESHOLD_MS ≤ h2.last_seen →
      openCount s.alerts h2.id = 1 →
      openCount ((offlineDetect now s).st).alerts h2.id = 0) := by
  set c := now - OFFLINE_THRESHOLD_MS with hc
  set offline := s.servers.filter (fun sv => decide (sv.last_seen < c)) with hoffdef
  set online := s.servers.filter (fun sv => decide (c ≤ sv.last_seen)) with hondef
  have hcreate := createOfflineAlerts_ids now offline s.alerts s.next_alert_id 0 hbound
  set alerts1 := (createOfflineAlerts now offline s.alerts s.next_alert_id 0).1 with ha1
  have hcnt1 : ∀ x, openCount alerts1 x =
      if openCount s.alerts x = 0 ∧ x ∈ offline.map (fun sv => sv.id) then 1
      else openCount s.alerts x :=
    fun x => createOfflineAlerts_count now offline s.alerts s.next_alert_id 0 hb x
  have hb1 : ∀ x, openCount alerts1 x ≤ 1 := by
    intro x
    rw [hcnt1 x]
    split
    · omega
    · exact hb x
  have hnd1 : (alerts1.map (fun v => v.id)).Nodup := hcreate.2 hnd
  have hcnt2 : ∀ x, openCount ((offlineDetect now s).st).alerts x =
      if openCount alerts1 x = 1 ∧ x ∈ online.map (fun sv => sv.id) then 0
      else openCount alerts1 x := by
    intro x
    rw [offlineDetect_alerts]
    exact clearOfflineAlerts_count online alerts1 0 hnd1 hb1 x
  refine ⟨?_, ?_, ?_, ?_, ?_⟩
  · intro y
    rw [hcnt2 y]
    split
    · omega
    · exact hb1 y
  · rw [offlineDetect_alerts, clearOfflineAlerts_ids]
    exact hnd1
  · intro a hmem
    rw [offlineDetect_nid]
    have hidmem : a.id ∈ (((offlineDetect now s).st).alerts.map (fun v => v.id)) :=
      List.mem_map.mpr ⟨a, hmem, rfl⟩
    rw [offlineDetect_alerts, clearOfflineAlerts_ids] at hidmem
    obtain ⟨b, hbmem, hbid⟩ := List.mem_map.mp hidmem
    rw [← hbid]
    exact hcreate.1 b hbmem
  · intro h1 hm1 hoff h1c
    have hmemoff : h1.id ∈ offline.map (fun sv => sv.id) :=
      List.mem_map.mpr ⟨h1, List.mem_filter.mpr ⟨hm1, by simpa using hoff⟩, rfl⟩
    have hnoton : h1.id ∉ online.map (fun sv => sv.id) := by
      intro hmem
      obtain ⟨z, hz, hzid⟩ := List.mem_map.mp hmem
      have hz1 : z ∈ s.servers := (List.mem_filter.mp hz).1
      have hz2 : c ≤ z.last_seen := by simpa using (List.mem_filter.mp hz).2
      have : z = h1 := nodup_map_mem_inj hsrv hz1 hm1 hzid
      subst this
      omega
    rw [hcnt2, hcnt1]
    simp [h1c, hmemoff, hnoton]
  · intro h2 hm2 hon h2c
    have hnotoff : h2.id ∉ offline.map (fun sv => sv.id) := by
      intro hmem
      obtain ⟨z, hz, hzid⟩ := List.mem_map.mp hmem
      have hz1 : z ∈ s.servers := (List.mem_filter.mp hz).1
      have hz2 : z.last_seen < c := by simpa using (List.mem_filter.mp hz).2
      have : z = h2 := nodup_map_mem_inj hsrv hz1 hm2 hzid
      subst this
      omega
    have hmemon : h2.id ∈ online.map (fun sv => sv.id) :=
      List.mem_map.mpr ⟨h2, List.mem_filter.mpr ⟨hm2, by simpa using hon⟩, rfl⟩
    rw [hcnt2, hcnt1]
    simp [h2c, hnotoff, hmemon]

/-- Claim C7 counterexample: a host whose last heartbeat is exactly 10
minutes old — "no heartbeat for at least 10 minutes" — acquires NO open
offline alert: the detector only selects hosts with last_seen strictly
below now - 10 minutes, so the claim fails at the boundary. -/
theorem offline_boundary_cex :
    (600000 : Int) - svT.last_seen ≥ 600000 ∧
    openCount stT.alerts svT.id = 0 ∧
    openCount ((offlineDetect 600000 stT).st).alerts svT.id = 0 := by decide

/-- Claim C7 amended: for a host whose last heartbeat is STRICTLY more than
10 minutes old and that has no open offline alert, one detector run opens
exactly one; for a host seen within the last 10 minutes with exactly one
open offline alert, the run clears it; and after one or two consecutive
runs no host ever has two open offline alerts.  Hypotheses are the store's
own invariants: unique server ids, unique alert ids, the alert-id sequence
bound, and at most one open offline alert per host. -/
theorem offline_detector_behaviour (now now2 : Int) (s : Store)
    (h1 h2 : ServerRow) (x : String)
    (hsrv : (s.servers.map (fun v => v.id)).Nodup)
    (hnd : (s.alerts.map (fun v => v.id)).Nodup)
    (hbound : ∀ a ∈ s.alerts, a.id < s.next_alert_id)
    (hcnt : ∀ y ∈ s.alerts.map (fun a => a.server_id), openCount s.alerts y ≤ 1)
    (hm1 : h1 ∈ s.servers) (hoff : h1.last_seen < now - 600000)
    (h1c : openCount s.alerts h1.id = 0)
    (hm2 : h2 ∈ s.servers) (hon : now - 600000 ≤ h2.last_seen)
    (h2c : openCount s.alerts h2.id = 1) :
    openCount ((offlineDetect now s).st).alerts h1.id = 1 ∧
    openCount ((offlineDetect now s).st).alerts h2.id = 0 ∧
    openCount ((offlineDetect now s).st).alerts x ≤ 1 ∧
    openCount ((offlineDetect now2 (offlineDetect now s).st).st).alerts x ≤ 1 := by
  have hb : ∀ y, openCount s.alerts y ≤ 1 := by
    intro y
    by_cases hy : y ∈ s.alerts.map (fun a => a.server_id)
    · exact hcnt y hy
    · rw [openCount_zero_of_not_mem hy]
      omega
  obtain ⟨g1, g2, g3, g4, g5⟩ := offlineDetect_count now s hsrv hnd hbound hb
  refine ⟨g4 h1 hm1 hoff h1c, g5 h2 hm2 hon h2c, g1 x, ?_⟩
  have hsrv' : (((offlineDetect now s).st).servers.map (fun v => v.id)).Nodup := by
    rw [offlineDetect_servers]
    exact hsrv
  obtain ⟨g1', -, -, -, -⟩ :=
    offlineDetect_count now2 (offlineDetect now s).st hsrv' g2 g3 g1
  exact g1' x

theorem offline_detector_behaviour_witness :
    ((stC7.servers.map (fun v => v.id)).Nodup ∧
     (stC7.alerts.map (fun v => v.id)).Nodup ∧
     (∀ a ∈ stC7.alerts, a.id < stC7.next_alert_id) ∧
     (∀ y ∈ stC7.alerts.map (fun a => a.server_id), openCount stC7.alerts y ≤ 1) ∧
     svOff ∈ stC7.servers ∧ svOff.last_seen < 700000 - 600000 ∧
     openCount stC7.alerts svOff.id = 0 ∧
     svOn ∈ stC7.servers ∧ (700000 : Int) - 600000 ≤ svOn.last_seen ∧
     openCount stC7.alerts svOn.id = 1) ∧
    (openCount ((offlineDetect 700000 stC7).st).alerts svOff.id = 1 ∧
     openCount ((offlineDetect 700000 stC7).st).alerts svOn.id = 0 ∧
     openCount ((offlineDetect 700000 stC7).st).alerts "off1" ≤ 1 ∧
     openCount ((offlineDetect 700000 (offlineDetect 700000 stC7).st).st).alerts "off1" ≤ 1) :=
  ⟨⟨by decide, by decide, by decide, by decide, by decide, by decide, by decide,
    by decide, by decide, by decide⟩,
   offline_detector_behaviour 700000 700000 stC7 svOff svOn "off1" (by decide) (by decide)
     (by decide) (by decide) (by decide) (by decide) (by decide) (by decide) (by decide)
     (by decide)⟩

end Godseye
